import Mathlib

/-!
Verification of the batch orchestration and report-aggregation pipeline of the
medical-image diagnostic service.

The embedding models the TypeScript sources:
  src/lib/file-utils.ts        (FileProcessor.createBatches)
  src/lib/diagnostic-ai.ts     (DiagnosticAI.compileFinalReport,
                                DiagnosticAI.generateComprehensiveSummary)
  src/app/api (diagnose route) (POST: sequential batch loop, total-failure path)

Modelling conventions, stated once here:
  - JavaScript runtime values coming out of JSON.parse are modelled by the
    inductive type Json below.  JSON numbers are exact decimal values
    mant / 10 ^ fexp (type DecNum); every number a conforming payload can
    contain is an exact decimal, and the integer confidence range relevant
    here is exact in IEEE doubles, so no floating-point rounding is modelled.
  - The JavaScript value undefined (absent object field, property access on a
    non-object primitive) is modelled by Json.null: in every use the code
    makes of such a value (truthiness test, Array.isArray test, defaulting
    with the or-operator) undefined and null behave identically.
  - Property access on the JavaScript value null throws a TypeError;
    Json.getProp returns none in exactly that case and the model propagates
    the abrupt termination to the enclosing try/catch the way the source does.
  - Wall-clock times (Date values) are modelled as Int milliseconds; the
    single parameter called now stands for the value new Date() produces
    during report compilation.
-/

/-- Exact decimal number mant / 10 ^ fexp, the model of a JavaScript number
produced by JSON.parse (JSON numeric literals are finite decimals). -/
structure DecNum where
  mant : ℤ
  fexp : ℕ
  deriving DecidableEq, Repr

/-- Numeric equality of two decimal values (the JavaScript === on numbers),
by cross multiplication. -/
def DecNum.eqv (a b : DecNum) : Bool :=
  a.mant * (10 : ℤ) ^ b.fexp == b.mant * (10 : ℤ) ^ a.fexp

/-- Exact addition of decimal values (the JavaScript + on two numbers). -/
def DecNum.add (a b : DecNum) : DecNum :=
  { mant := a.mant * (10 : ℤ) ^ (max a.fexp b.fexp - a.fexp)
      + b.mant * (10 : ℤ) ^ (max a.fexp b.fexp - b.fexp),
    fexp := max a.fexp b.fexp }

/-- Whole number as a decimal value. -/
def DecNum.ofInt (n : ℤ) : DecNum := { mant := n, fexp := 0 }

/-- Math.round of a decimal value: floor of the value plus one half,
computed by integer floor division. -/
def DecNum.jsRound (d : DecNum) : ℤ :=
  Int.fdiv (2 * d.mant + (10 : ℤ) ^ d.fexp) (2 * (10 : ℤ) ^ d.fexp)

/-- Math.round (d / v) for a positive integer divisor v, computed exactly. -/
def DecNum.jsRoundDiv (d : DecNum) (v : ℕ) : ℤ :=
  Int.fdiv (2 * d.mant + (v : ℤ) * (10 : ℤ) ^ d.fexp) (2 * (v : ℤ) * (10 : ℤ) ^ d.fexp)

/-- JavaScript runtime value produced by JSON.parse. -/
inductive Json where
  | null
  | bool (b : Bool)
  | num (d : DecNum)
  | str (s : String)
  | arr (elems : List Json)
  | obj (members : List (String × Json))

/-- Truthiness of a parsed value (JavaScript Boolean coercion; a parsed
number is falsy exactly when it equals zero, a parsed string exactly when it
is empty; arrays and objects are always truthy). -/
def Json.truthy : Json → Bool
  | .null => false
  | .bool b => b
  | .num d => !(d.mant == 0)
  | .str s => !(s == "")
  | .arr _ => true
  | .obj _ => true

/-- Array.isArray. -/
def Json.isArr : Json → Bool
  | .arr _ => true
  | _ => false

/-- Elements of an array value (empty for non-arrays; every use is guarded
by Array.isArray in the source). -/
def Json.items : Json → List Json
  | .arr xs => xs
  | _ => []

/-- Last binding of a key in an object literal: JSON.parse keeps the last
occurrence of a duplicated key. -/
def lookupLast (fs : List (String × Json)) (k : String) : Option Json :=
  fs.foldl (fun acc p => if p.1 == k then some p.2 else acc) none

/-- Property access v.k on a parsed value.  Returns none exactly when the
access throws a TypeError (v is null; JSON.parse never yields undefined).
An absent field, or access on a primitive or array, yields undefined,
modelled by Json.null (see the header comment). -/
def Json.getProp : Json → String → Option Json
  | .null, _ => none
  | .obj fs, k => some ((lookupLast fs k).getD Json.null)
  | _, _ => some Json.null

/-- The defaulting idiom value-or-default of the source (JavaScript or
operator): keeps the value when truthy, else the default. -/
def jsOr (v d : Json) : Json := if v.truthy then v else d

/-- SameValueZero comparison used by Set membership.  Primitives compare by
value (numbers numerically); arrays and objects compare by reference, and
since every element pushed during aggregation is a freshly parsed structure,
two distinct pushes of non-primitive values are never the same reference:
the comparison is false for them. -/
def jsSameValueZero : Json → Json → Bool
  | .null, .null => true
  | .bool a, .bool b => a == b
  | .num a, .num b => a.eqv b
  | .str a, .str b => a == b
  | _, _ => false

/-- Deduplication by first occurrence, the effect of spreading a Set built
from the list (insertion order preserved, SameValueZero membership). -/
def jsDedup (l : List Json) : List Json :=
  l.foldl (fun acc v => if acc.any (fun w => jsSameValueZero w v) then acc else acc ++ [v]) []

/-! ## JSON.parse

A strict whole-string JSON parser over character lists, fuelled for
termination.  It models ECMA-404 JSON.parse: optional whitespace around
tokens, objects, arrays, strings with escapes, decimal numbers, and the
three literals; anything else (in particular a JSON object embedded in
surrounding prose) fails.  Unicode escapes are mapped to scalar values
without UTF-16 surrogate-pair recombination, a corner no claim exercises. -/

/-- JSON whitespace. -/
def jsonWs (c : Char) : Bool :=
  c == ' ' || c == '\t' || c == '\n' || c == '\r'

/-- Drop leading JSON whitespace. -/
def skipWs : List Char → List Char
  | [] => []
  | c :: rest => if jsonWs c then skipWs rest else c :: rest

/-- Hexadecimal digit value. -/
def hexVal? (c : Char) : Option ℕ :=
  if '0' ≤ c ∧ c ≤ '9' then some (c.toNat - 48)
  else if 'a' ≤ c ∧ c ≤ 'f' then some (c.toNat - 87)
  else if 'A' ≤ c ∧ c ≤ 'F' then some (c.toNat - 55)
  else none

/-- Body of a JSON string after the opening quote; returns the decoded
string and the input after the closing quote. -/
def parseStringBody : ℕ → List Char → List Char → Option (String × List Char)
  | 0, _, _ => none
  | _, _, [] => none
  | fuel + 1, acc, c :: rest =>
    if c == '"' then some (String.mk acc.reverse, rest)
    else if c == '\\' then
      match rest with
      | [] => none
      | e :: rest2 =>
        if e == '"' then parseStringBody fuel ('"' :: acc) rest2
        else if e == '\\' then parseStringBody fuel ('\\' :: acc) rest2
        else if e == '/' then parseStringBody fuel ('/' :: acc) rest2
        else if e == 'b' then parseStringBody fuel ('\x08' :: acc) rest2
        else if e == 'f' then parseStringBody fuel ('\x0c' :: acc) rest2
        else if e == 'n' then parseStringBody fuel ('\n' :: acc) rest2
        else if e == 'r' then parseStringBody fuel ('\r' :: acc) rest2
        else if e == 't' then parseStringBody fuel ('\t' :: acc) rest2
        else if e == 'u' then
          match rest2 with
          | h1 :: h2 :: h3 :: h4 :: rest3 =>
            match hexVal? h1, hexVal? h2, hexVal? h3, hexVal? h4 with
            | some x1, some x2, some x3, some x4 =>
              parseStringBody fuel (Char.ofNat (((x1 * 16 + x2) * 16 + x3) * 16 + x4) :: acc) rest3
            | _, _, _, _ => none
          | _ => none
        else none
    else if c.toNat < 32 then none
    else parseStringBody fuel (c :: acc) rest

/-- Take a maximal run of decimal digits. -/
def takeDigits : List Char → List Char × List Char
  | [] => ([], [])
  | c :: rest =>
    if c.isDigit then
      let p := takeDigits rest
      (c :: p.1, p.2)
    else ([], c :: rest)

/-- Value of a digit run. -/
def digitsToNat (ds : List Char) : ℕ :=
  ds.foldl (fun a c => a * 10 + (c.toNat - 48)) 0

/-- Assemble a decimal number from its parsed parts: sign, integer digits,
fraction digits, exponent sign and exponent digits. -/
def buildDecNum (neg : Bool) (ip fp : List Char) (expNeg : Bool) (ed : ℕ) : DecNum :=
  let mant0 : ℤ := (digitsToNat (ip ++ fp) : ℤ)
  let mant1 : ℤ := if neg then -mant0 else mant0
  if expNeg then { mant := mant1, fexp := fp.length + ed }
  else if ed ≥ fp.length then { mant := mant1 * (10 : ℤ) ^ (ed - fp.length), fexp := 0 }
  else { mant := mant1, fexp := fp.length - ed }

/-- JSON number literal: -?(0|[1-9][0-9]*)(.[0-9]+)?([eE][+-]?[0-9]+)? . -/
def parseNumber? (cs : List Char) : Option (Json × List Char) :=
  let p1 := match cs with
    | '-' :: r => (true, r)
    | _ => (false, cs)
  let neg := p1.1
  let ip := takeDigits p1.2
  match ip.1 with
  | [] => none
  | d0 :: drest =>
    if d0 == '0' ∧ drest ≠ [] then none
    else
      let p2 := match ip.2 with
        | '.' :: r =>
          let fq := takeDigits r
          if fq.1 = [] then none else some (fq.1, fq.2)
        | _ => some ([], ip.2)
      match p2 with
      | none => none
      | some (fp, rest2) =>
        match rest2 with
        | 'e' :: r3 | 'E' :: r3 =>
          let p3 := match r3 with
            | '+' :: r4 => (false, r4)
            | '-' :: r4 => (true, r4)
            | _ => (false, r3)
          let eq := takeDigits p3.2
          if eq.1 = [] then none
          else some (Json.num (buildDecNum neg ip.1 fp p3.1 (digitsToNat eq.1)), eq.2)
        | _ => some (Json.num (buildDecNum neg ip.1 fp false 0), rest2)

mutual

/-- One JSON value at the head of the input (leading whitespace already
consumed by the caller). -/
def parseValue : ℕ → List Char → Option (Json × List Char)
  | 0, _ => none
  | fuel + 1, cs =>
    match cs with
    | [] => none
    | c :: rest =>
      if c == '\x7b' then
        match skipWs rest with
        | '\x7d' :: r2 => some (Json.obj [], r2)
        | cs2 => parseMembers fuel cs2 []
      else if c == '[' then
        match skipWs rest with
        | ']' :: r2 => some (Json.arr [], r2)
        | cs2 => parseElements fuel cs2 []
      else if c == '"' then
        match parseStringBody (rest.length + 1) [] rest with
        | some (s, r2) => some (Json.str s, r2)
        | none => none
      else if c == 't' then
        match rest with
        | 'r' :: 'u' :: 'e' :: r2 => some (Json.bool true, r2)
        | _ => none
      else if c == 'f' then
        match rest with
        | 'a' :: 'l' :: 's' :: 'e' :: r2 => some (Json.bool false, r2)
        | _ => none
      else if c == 'n' then
        match rest with
        | 'u' :: 'l' :: 'l' :: r2 => some (Json.null, r2)
        | _ => none
      else parseNumber? cs

/-- Comma-separated array elements up to the closing bracket. -/
def parseElements : ℕ → List Char → List Json → Option (Json × List Char)
  | 0, _, _ => none
  | fuel + 1, cs, acc =>
    match parseValue fuel (skipWs cs) with
    | none => none
    | some (v, rest) =>
      match skipWs rest with
      | ',' :: r2 => parseElements fuel r2 (v :: acc)
      | ']' :: r2 => some (Json.arr (v :: acc).reverse, r2)
      | _ => none

/-- Comma-separated object members up to the closing brace. -/
def parseMembers : ℕ → List Char → List (String × Json) → Option (Json × List Char)
  | 0, _, _ => none
  | fuel + 1, cs, acc =>
    match skipWs cs with
    | '"' :: rest =>
      match parseStringBody (rest.length + 1) [] rest with
      | none => none
      | some (k, r1) =>
        match skipWs r1 with
        | ':' :: r2 =>
          match parseValue fuel (skipWs r2) with
          | none => none
          | some (v, r3) =>
            match skipWs r3 with
            | ',' :: r4 => parseMembers fuel r4 ((k, v) :: acc)
            | '\x7d' :: r4 => some (Json.obj ((k, v) :: acc).reverse, r4)
            | _ => none
        | _ => none
    | _ => none

end

/-- JSON.parse: the whole input, up to surrounding whitespace, must be one
JSON value; otherwise the parse throws, modelled by none.  The fuel bound
dominates the two fuel units any parsed character can cost. -/
def jsonParse (s : String) : Option Json :=
  match parseValue (2 * s.data.length + 8) (skipWs s.data) with
  | some (j, rest) => if skipWs rest = [] then some j else none
  | none => none

/-! ## JavaScript coercions used by the aggregation code

The running total of batch confidences is a JavaScript variable initialised
to the number 0 and updated with the + operator, so its value is always a
number or (after adding a truthy non-number) a string. -/

/-- Decimal rendering of a number for string contexts.  Exact for whole
values, the only numbers any integer-confidence payload produces; for
non-integer values JavaScript renders the shortest representation of the
underlying double, which this embedding abstracts by a slash-free exact
rendering (no claim exercises that corner). -/
def jsNumToString (d : DecNum) : String :=
  if d.fexp = 0 then toString d.mant
  else toString d.mant ++ "e-" ++ toString d.fexp

mutual

/-- String coercion of a parsed value (JavaScript template/concat rules):
numbers render in decimal, arrays join their items with commas rendering
null items as empty, objects render as the object placeholder text. -/
def jsValueToString : Json → String
  | .null => "null"
  | .bool b => cond b "true" "false"
  | .num d => jsNumToString d
  | .str s => s
  | .arr xs => String.intercalate "," (jsArrayItems xs)
  | .obj _ => "[object Object]"

/-- Item rendering inside an array join: null renders empty. -/
def jsArrayItems : List Json → List String
  | [] => []
  | .null :: rest => "" :: jsArrayItems rest
  | j :: rest => jsValueToString j :: jsArrayItems rest

end

/-- Value of the mutable totalConfidence variable: a number, or a string
after concatenation contaminated it. -/
inductive JsNum where
  | num (d : DecNum)
  | str (s : String)
  deriving Repr

/-- The JavaScript + operator applied to the running total and a parsed
value: numbers add numerically, boolean true adds one, null adds zero, and a
string (or array or object, via their string coercions) switches the total
to string concatenation, as does any further addition onto a string. -/
def jsAdd (a : JsNum) (v : Json) : JsNum :=
  match a, v with
  | .num q, .num p => .num (q.add p)
  | .num q, .bool b => .num (q.add (DecNum.ofInt (cond b 1 0)))
  | .num q, .null => .num q
  | .num q, .str s => .str (jsNumToString q ++ s)
  | .num q, .arr xs => .str (jsNumToString q ++ jsValueToString (Json.arr xs))
  | .num q, .obj fs => .str (jsNumToString q ++ jsValueToString (Json.obj fs))
  | .str t, w => .str (t ++ jsValueToString w)

/-- Number(s) coercion of a string, used when a string-valued total is
divided: trimmed empty input is 0, otherwise a decimal literal with
optional sign, fraction and exponent; anything else is NaN, modelled by
none.  Hexadecimal and Infinity forms are abstracted as NaN (unreachable
in any claim). -/
def jsStrToNumber (s : String) : Option DecNum :=
  let cs := skipWs s.data
  match cs with
  | [] => some ⟨0, 0⟩
  | _ =>
    let p1 := match cs with
      | '-' :: r => (true, r)
      | '+' :: r => (false, r)
      | _ => (false, cs)
    let ip := takeDigits p1.2
    let p2 := match ip.2 with
      | '.' :: r =>
        let fq := takeDigits r
        some (fq.1, fq.2)
      | _ => some (([] : List Char), ip.2)
    match p2 with
    | none => none
    | some (fp, rest2) =>
      if ip.1 = [] ∧ fp = [] then none
      else
        let fin := match rest2 with
          | 'e' :: r3 | 'E' :: r3 =>
            let p3 := match r3 with
              | '+' :: r4 => (false, r4)
              | '-' :: r4 => (true, r4)
              | _ => (false, r3)
            let eq := takeDigits p3.2
            if eq.1 = [] then none
            else some (buildDecNum p1.1 ip.1 fp p3.1 (digitsToNat eq.1), eq.2)
          | _ => some (buildDecNum p1.1 ip.1 fp false 0, rest2)
        match fin with
        | none => none
        | some (d, rest3) => if skipWs rest3 = [] then some d else none

/-- Math.round of the final total divided by the number of valid batches:
a numeric total divides exactly; a string total is first coerced with
Number, where NaN (none) propagates. -/
def jsRoundDivTotal (t : JsNum) (v : ℕ) : Option ℤ :=
  match t with
  | .num d => some (d.jsRoundDiv v)
  | .str s => (jsStrToNumber s).map (fun d => d.jsRoundDiv v)

/-! ## Data model (src/types/diagnostic.ts) -/

/-- UploadedImage. -/
structure UploadedImage where
  id : String
  filename : String
  size : ℕ
  type : String
  base64 : String
  uploadedAt : Int
  deriving DecidableEq, Repr

/-- Batch status state machine. -/
inductive BatchStatus where
  | pending
  | processing
  | completed
  | error
  deriving DecidableEq, Repr

/-- ImageBatch. -/
structure ImageBatch where
  id : String
  images : List UploadedImage
  status : BatchStatus
  batchNumber : ℕ
  totalBatches : ℕ
  processedAt : Option Int := none
  result : Option String := none
  error : Option String := none
  deriving Repr

/-- Finding.  The non-identifier payload fields hold the raw parsed values
the source stores (after its or-defaulting), which the TypeScript
annotations do not actually validate at runtime. -/
structure Finding where
  id : String
  description : Json
  severity : Json
  location : Json
  confidence : Json
  relatedImages : List String

/-- DiagnosticReport.  confidence is the value of Math.round applied to the
average (none models NaN, producible only by a non-numeric confidence
contamination); times are Int milliseconds. -/
structure DiagnosticReport where
  id : String
  sessionId : String
  patientId : Option String
  summary : String
  findings : List Finding
  recommendations : List Json
  confidence : Option ℤ
  processingTime : Int
  imageCount : ℕ
  generatedAt : Int

/-- DiagnoseResponse payload of the diagnose route. -/
structure DiagnoseResponse where
  sessionId : String
  batchResults : List ImageBatch
  finalReport : Option DiagnosticReport
  isComplete : Bool

/-- ApiResponse envelope of the diagnose route together with the HTTP
status code it is sent with. -/
structure ApiResponse where
  success : Bool
  error : Option String := none
  data : Option DiagnoseResponse := none
  message : Option String := none
  status : ℕ

/-! ## Batch partitioner (src/lib/file-utils.ts, FileProcessor.createBatches)

The source loop pushes images.slice(i, i + batchSize) for i = 0, b, 2b, ...;
each slice is drop i followed by take b.  The loop does not terminate for
batchSize = 0 (the index never advances); the model returns the empty list
there, a case no claim relies on (every claim assumes a positive size, and
both call sites pass 20).  The recursion is structural on a fuel argument
initialised to the image count, which dominates the chunk count for any
positive batch size. -/
def createBatchesAux : ℕ → List UploadedImage → ℕ → List (List UploadedImage)
  | 0, _, _ => []
  | _, [], _ => []
  | fuel + 1, i :: rest, batchSize =>
    if batchSize = 0 then []
    else (i :: rest).take batchSize :: createBatchesAux fuel ((i :: rest).drop batchSize) batchSize

/-- FileProcessor.createBatches. -/
def createBatches (images : List UploadedImage) (batchSize : ℕ) : List (List UploadedImage) :=
  createBatchesAux images.length images batchSize

/-! ## Aggregation state (the mutable locals of compileFinalReport) -/

/-- The four mutable accumulators of compileFinalReport (the summaries
array is also collected by the source but generateComprehensiveSummary
ignores its summaries parameter, so no claim can observe it and it is
omitted). -/
structure AggState where
  allFindings : List Finding
  allRecommendations : List Json
  totalConfidence : JsNum
  validBatches : ℕ

/-- Initial accumulator values. -/
def initAgg : AggState :=
  { allFindings := [], allRecommendations := [], totalConfidence := .num ⟨0, 0⟩, validBatches := 0 }

/-- The finding identifier template finding-INDEX-COUNT, where INDEX is the
batch position and COUNT the value of allFindings.length at push time. -/
def mkFindingId (index count : ℕ) : String :=
  "finding-" ++ toString index ++ "-" ++ toString count

/-- The forEach over a findings array: pushes one Finding per item with the
source's per-field defaulting; a null item throws a TypeError at the
description access, which aborts the iteration (and the rest of the try
block) while keeping the findings already pushed — the second component
reports that abrupt exit.  off is the value of allFindings.length when the
iteration starts. -/
def findingsGo : List Json → ℕ → List String → ℕ → List Finding × Bool
  | [], _, _, _ => ([], false)
  | e :: rest, index, imgIds, off =>
    match e.getProp "description" with
    | none => ([], true)
    | some d =>
      let f : Finding :=
        { id := mkFindingId index off,
          description := jsOr d (Json.str "No description provided"),
          severity := jsOr ((e.getProp "severity").getD Json.null) (Json.str "moderate"),
          location := jsOr ((e.getProp "location").getD Json.null) (Json.str "Not specified"),
          confidence := jsOr ((e.getProp "confidence").getD Json.null) (Json.num ⟨50, 0⟩),
          relatedImages := imgIds }
      let p := findingsGo rest index imgIds (off + 1)
      (f :: p.1, p.2)

/-- Findings contributed by one parsed payload value fv (the guarded branch
of the source: only a truthy array is iterated). -/
def findingsFromValue (fv : Json) (index : ℕ) (imgIds : List String) (off : ℕ) :
    List Finding × Bool :=
  if fv.truthy && fv.isArr then findingsGo fv.items index imgIds off else ([], false)

/-- The guarded entry to a batch's contribution: the source contributes
only when the batch is completed with a truthy (non-empty) result string,
and then parses it; none models both a skipped batch and a JSON.parse
throw caught by the surrounding try/catch. -/
def batchPayload (b : ImageBatch) : Option Json :=
  if b.status == .completed && (match b.result with | some s => !(s == "") | none => false) then
    match b.result with
    | none => none
    | some raw => jsonParse raw
  else none

/-- The body of the try block of compileFinalReport on a parsed payload, in
source order: findings, recommendations, then confidence (the summaries
step mutates only state the rest of the program never reads, see AggState).
A TypeError — property access on null, possible at the findings access and
at each null findings item — keeps the state mutated so far and skips the
remaining steps, like the real exception unwinding into the catch. -/
def processPayload (index : ℕ) (b : ImageBatch) (bd : Json) (st : AggState) : AggState :=
  match bd.getProp "findings" with
  | none => st
  | some fv =>
    let p := findingsFromValue fv index (b.images.map (fun img => img.id)) st.allFindings.length
    let st1 : AggState := { st with allFindings := st.allFindings ++ p.1 }
    if p.2 then st1
    else
      match bd.getProp "recommendations" with
      | none => st1
      | some rv =>
        let st2 : AggState :=
          if rv.truthy && rv.isArr then
            { st1 with allRecommendations := st1.allRecommendations ++ rv.items }
          else st1
        match bd.getProp "confidence" with
        | none => st2
        | some cv =>
          if cv.truthy then
            { st2 with totalConfidence := jsAdd st2.totalConfidence cv,
                       validBatches := st2.validBatches + 1 }
          else st2

/-- One iteration of the batches.forEach of compileFinalReport. -/
def processBatchResult (index : ℕ) (b : ImageBatch) (st : AggState) : AggState :=
  match batchPayload b with
  | none => st
  | some bd => processPayload index b bd st

/-- Accumulator state after the first n iterations of the forEach. -/
def aggAfter (batches : List ImageBatch) (n : ℕ) : AggState :=
  ((batches.enum).take n).foldl (fun st p => processBatchResult p.1 p.2 st) initAgg

/-- Accumulator state after the whole forEach. -/
def finalAgg (batches : List ImageBatch) : AggState :=
  (batches.enum).foldl (fun st p => processBatchResult p.1 p.2 st) initAgg

/-- Number of findings whose severity strictly equals the given string
(the === filters of generateComprehensiveSummary). -/
def countSeverity (findings : List Finding) (sev : String) : ℕ :=
  (findings.filter (fun f => jsSameValueZero f.severity (Json.str sev))).length

/-- DiagnosticAI.generateComprehensiveSummary: sequential conditional
appends in source order (critical, high, moderate, low, the no-findings
sentence, the fixed closing sentence). -/
def generateComprehensiveSummary (findings : List Finding) (imageCount batchCount : ℕ) : String :=
  let criticalFindings := countSeverity findings "critical"
  let highFindings := countSeverity findings "high"
  let moderateFindings := countSeverity findings "moderate"
  let lowFindings := countSeverity findings "low"
  let s0 := "Comprehensive diagnostic analysis of " ++ toString imageCount ++
    " medical images processed across " ++ toString batchCount ++ " batches. "
  let s1 := if criticalFindings > 0 then
      s0 ++ "CRITICAL: " ++ toString criticalFindings ++
        " critical finding(s) identified requiring immediate attention. "
    else s0
  let s2 := if highFindings > 0 then
      s1 ++ toString highFindings ++ " high-severity finding(s) noted. "
    else s1
  let s3 := if moderateFindings > 0 then
      s2 ++ toString moderateFindings ++ " moderate finding(s) observed. "
    else s2
  let s4 := if lowFindings > 0 then
      s3 ++ toString lowFindings ++ " low-severity observation(s) documented. "
    else s3
  let s5 := if findings.length = 0 then
      s4 ++ "No significant abnormalities detected in the analyzed images. "
    else s4
  s5 ++ "Detailed findings and recommendations are provided below for clinical consideration."

/-- DiagnosticAI.compileFinalReport.  now models the Date value used for
the missing-timestamp fallbacks and the generation stamp (the source calls
new Date() at each of those spots within the same tick). -/
def compileFinalReport (sessionId : String) (batches : List ImageBatch)
    (patientId : Option String) (now : Int) : DiagnosticReport :=
  let st := finalAgg batches
  let totalImages := (batches.map (fun b => b.images.length)).sum
  let averageConfidence : Option ℤ :=
    if st.validBatches > 0 then jsRoundDivTotal st.totalConfidence st.validBatches else some 0
  let processingStartTime := (batches.head?.bind (fun b => b.processedAt)).getD now
  let processingEndTime := (batches.getLast?.bind (fun b => b.processedAt)).getD now
  { id := "report-" ++ sessionId,
    sessionId := sessionId,
    patientId := patientId,
    summary := generateComprehensiveSummary st.allFindings totalImages batches.length,
    findings := st.allFindings,
    recommendations := jsDedup st.allRecommendations,
    confidence := averageConfidence,
    processingTime := processingEndTime - processingStartTime,
    imageCount := totalImages,
    generatedAt := now }

/-! ## Diagnose route (POST of the api diagnose route)

The network call DiagnosticAI.processBatch is the model boundary: per the
Inference Client contract it resolves to either a raw text reply or a
failure reason, never throwing (its own try/catch returns the failure
object), so the per-iteration catch of the route loop is dead code.  An
InferOutcome gives, per batch position, that resolution, carrying for a
success the Date at which the loop stamps processedAt.  Request-shape
validation (missing sessionId or non-array images) precedes the modelled
fragment and is owned by the transport layer. -/

/-- Resolution of the inference call for one batch. -/
inductive InferOutcome where
  | success (result : String) (time : Int)
  | failure (error : String)

/-- Whether the outcome is a success. -/
def InferOutcome.isSuccess : InferOutcome → Bool
  | .success _ _ => true
  | .failure _ => false

/-- The loop body's terminal write-back for one batch (the intermediate
processing status is overwritten before the iteration ends and is not
observable in the returned sequence). -/
def applyOutcome (o : InferOutcome) (b : ImageBatch) : ImageBatch :=
  match o with
  | .success r t => { b with status := .completed, result := some r, processedAt := some t }
  | .failure e => { b with status := .error, error := some e }

/-- Initial batch objects built from the partitions. -/
def initialBatches (sessionId : String) (imageBatches : List (List UploadedImage)) :
    List ImageBatch :=
  (imageBatches.enum).map (fun p =>
    { id := "batch-" ++ sessionId ++ "-" ++ toString p.1,
      images := p.2,
      status := .pending,
      batchNumber := p.1 + 1,
      totalBatches := imageBatches.length })

/-- The sequential batch loop: strictly one batch at a time, each driven to
its terminal state independently of the others (the pacing delay between
iterations does not affect state). -/
def runBatches (infer : ℕ → InferOutcome) (batches : List ImageBatch) : List ImageBatch :=
  (batches.enum).map (fun p => applyOutcome (infer p.1) p.2)

/-- POST of the diagnose route, after request-shape validation: partition
into batches of 20, run the loop, then either the total-failure response
(success false, concatenated error details, no report) or the success
response carrying the compiled report. -/
def apiPOST (sessionId : String) (images : List UploadedImage) (patientId : Option String)
    (infer : ℕ → InferOutcome) (now : Int) : ApiResponse :=
  if images.length = 0 then
    { success := false, error := some "No images provided for processing", status := 400 }
  else
    let imageBatches := createBatches images 20
    let batches := runBatches infer (initialBatches sessionId imageBatches)
    let completedBatches := batches.filter (fun b => b.status == .completed)
    let errorBatches := batches.filter (fun b => b.status == .error)
    if completedBatches.length = 0 then
      { success := false,
        error := some ("All batches failed to process. Errors: " ++
          String.intercalate "; " (errorBatches.map (fun b => b.error.getD ""))),
        data := some { sessionId := sessionId, batchResults := batches,
                       finalReport := none, isComplete := false },
        status := 500 }
    else
      let finalReport := compileFinalReport sessionId batches patientId now
      { success := true,
        data := some { sessionId := sessionId, batchResults := batches,
                       finalReport := some finalReport, isComplete := true },
        message := some (if errorBatches.length > 0 then
          "Processing completed with " ++ toString errorBatches.length ++
            " batch(es) failed out of " ++ toString batches.length
          else "Successfully processed all " ++ toString batches.length ++ " batches"),
        status := 200 }

/-! ## Partition lemmas -/

/-- Ceiling-division step: one chunk of size b accounts for one unit of
ceil (n / b) when n is positive. -/
theorem ceilDiv_succ_step (n b : ℕ) (hb : 0 < b) (hn : 0 < n) :
    (n + b - 1) / b = (n - b + b - 1) / b + 1 := by
  rcases le_or_lt b n with hle | hlt
  · have h1 : n - b + b = n := Nat.sub_add_cancel hle
    have h2 : n + b - 1 = (n - b + b - 1) + b := by omega
    rw [h2, Nat.add_div_right _ hb]
  · have h1 : n - b = 0 := by omega
    have h2 : (n - b + b - 1) / b = 0 := by
      apply Nat.div_eq_of_lt; omega
    rw [h2]
    have lo : 1 * b ≤ n + b - 1 := by omega
    have hi : n + b - 1 < (1 + 1) * b := by omega
    rw [Nat.div_eq_of_lt_le lo hi]

/-- Partition correctness of the fuelled chunking loop, for any fuel
dominating the image count and any positive batch size: concatenation
restores the input, the chunk count is ceil (count / b), and no chunk is
empty. -/
theorem createBatchesAux_spec (fuel : ℕ) :
    ∀ (images : List UploadedImage) (b : ℕ), images.length ≤ fuel → 0 < b →
      (createBatchesAux fuel images b).flatten = images ∧
      (createBatchesAux fuel images b).length = (images.length + b - 1) / b ∧
      ∀ batch ∈ createBatchesAux fuel images b, batch ≠ [] := by
  induction fuel with
  | zero =>
    intro images b hlen hb
    have himg : images = [] := List.eq_nil_of_length_eq_zero (Nat.le_zero.mp hlen)
    subst himg
    have h0 : (0 + b - 1) / b = 0 := Nat.div_eq_of_lt (by omega)
    refine ⟨rfl, ?_, ?_⟩
    · simpa [createBatchesAux] using h0.symm
    · intro batch hmem
      simp [createBatchesAux] at hmem
  | succ fuel ih =>
    intro images b hlen hb
    cases images with
    | nil =>
      have h0 : (0 + b - 1) / b = 0 := Nat.div_eq_of_lt (by omega)
      refine ⟨rfl, ?_, ?_⟩
      · simpa [createBatchesAux] using h0.symm
      · intro batch hmem
        simp [createBatchesAux] at hmem
    | cons i rest =>
      have hb0 : ¬ b = 0 := Nat.pos_iff_ne_zero.mp hb
      have hstep : createBatchesAux (fuel + 1) (i :: rest) b =
          (i :: rest).take b :: createBatchesAux fuel ((i :: rest).drop b) b := by
        simp [createBatchesAux, hb0]
      have hlen' : rest.length + 1 ≤ fuel + 1 := by simpa using hlen
      have hdlen : ((i :: rest).drop b).length ≤ fuel := by
        simp only [List.length_drop, List.length_cons]
        omega
      obtain ⟨hjoin, hcount, hne⟩ := ih ((i :: rest).drop b) b hdlen hb
      refine ⟨?_, ?_, ?_⟩
      · rw [hstep]
        have hj : ((i :: rest).take b :: createBatchesAux fuel ((i :: rest).drop b) b).flatten
            = (i :: rest).take b ++ (createBatchesAux fuel ((i :: rest).drop b) b).flatten := rfl
        rw [hj, hjoin, List.take_append_drop]
      · rw [hstep]
        simp only [List.length_cons, hcount, List.length_drop]
        have := ceilDiv_succ_step (rest.length + 1) b hb (by omega)
        omega
      · intro batch hmem
        rw [hstep] at hmem
        rcases List.mem_cons.mp hmem with heq | hmem2
        · subst heq
          cases b with
          | zero => omega
          | succ k => simp
        · exact hne batch hmem2

/-- C1: for every non-empty image list and every batch size b greater than
zero, createBatches yields batches whose concatenation in order reproduces
the input exactly, whose count is ceil (N / b) (written (N + b - 1) / b in
natural division), and none of which is empty. -/
theorem createBatches_partition (images : List UploadedImage) (b : ℕ)
    (hb : 0 < b) (_hne : images ≠ []) :
    (createBatches images b).flatten = images ∧
    (createBatches images b).length = (images.length + b - 1) / b ∧
    ∀ batch ∈ createBatches images b, batch ≠ [] :=
  createBatchesAux_spec images.length images b le_rfl hb

/-- Witness for C1 at a concrete input: five images in batches of two give
chunks of sizes two, two and one that concatenate back to the input. -/
theorem createBatches_partition_witness :
    (0 < 2 ∧ ([{ id := "a", filename := "a", size := 1, type := "t", base64 := "", uploadedAt := 0 },
      { id := "b", filename := "b", size := 1, type := "t", base64 := "", uploadedAt := 0 },
      { id := "c", filename := "c", size := 1, type := "t", base64 := "", uploadedAt := 0 },
      { id := "d", filename := "d", size := 1, type := "t", base64 := "", uploadedAt := 0 },
      { id := "e", filename := "e", size := 1, type := "t", base64 := "", uploadedAt := 0 }] : List UploadedImage) ≠ []) ∧
    ((createBatches [{ id := "a", filename := "a", size := 1, type := "t", base64 := "", uploadedAt := 0 },
      { id := "b", filename := "b", size := 1, type := "t", base64 := "", uploadedAt := 0 },
      { id := "c", filename := "c", size := 1, type := "t", base64 := "", uploadedAt := 0 },
      { id := "d", filename := "d", size := 1, type := "t", base64 := "", uploadedAt := 0 },
      { id := "e", filename := "e", size := 1, type := "t", base64 := "", uploadedAt := 0 }] 2).flatten
      = [{ id := "a", filename := "a", size := 1, type := "t", base64 := "", uploadedAt := 0 },
      { id := "b", filename := "b", size := 1, type := "t", base64 := "", uploadedAt := 0 },
      { id := "c", filename := "c", size := 1, type := "t", base64 := "", uploadedAt := 0 },
      { id := "d", filename := "d", size := 1, type := "t", base64 := "", uploadedAt := 0 },
      { id := "e", filename := "e", size := 1, type := "t", base64 := "", uploadedAt := 0 }] ∧
    (createBatches [{ id := "a", filename := "a", size := 1, type := "t", base64 := "", uploadedAt := 0 },
      { id := "b", filename := "b", size := 1, type := "t", base64 := "", uploadedAt := 0 },
      { id := "c", filename := "c", size := 1, type := "t", base64 := "", uploadedAt := 0 },
      { id := "d", filename := "d", size := 1, type := "t", base64 := "", uploadedAt := 0 },
      { id := "e", filename := "e", size := 1, type := "t", base64 := "", uploadedAt := 0 }] 2).length = (5 + 2 - 1) / 2 ∧
    ∀ batch ∈ createBatches [{ id := "a", filename := "a", size := 1, type := "t", base64 := "", uploadedAt := 0 },
      { id := "b", filename := "b", size := 1, type := "t", base64 := "", uploadedAt := 0 },
      { id := "c", filename := "c", size := 1, type := "t", base64 := "", uploadedAt := 0 },
      { id := "d", filename := "d", size := 1, type := "t", base64 := "", uploadedAt := 0 },
      { id := "e", filename := "e", size := 1, type := "t", base64 := "", uploadedAt := 0 }] 2, batch ≠ []) :=
  ⟨⟨by decide, by decide⟩,
   createBatches_partition _ 2 (by decide) (by decide)⟩

/-! ## Per-batch contribution decomposition

The mutable accumulators only ever grow; the following functions compute,
per batch, the lists and values one forEach iteration appends, and the
lemmas show the iteration equals appending them. -/

/-- Whether iterating a findings array throws a TypeError (a null item). -/
def findingsAbort : List Json → Bool
  | [] => false
  | e :: rest =>
    match e.getProp "description" with
    | none => true
    | some _ => findingsAbort rest

/-- The abrupt-exit flag of findingsGo depends only on the items. -/
theorem findingsGo_snd (elems : List Json) :
    ∀ (index : ℕ) (imgIds : List String) (off : ℕ),
      (findingsGo elems index imgIds off).2 = findingsAbort elems := by
  induction elems with
  | nil => intro index imgIds off; rfl
  | cons e rest ih =>
    intro index imgIds off
    simp only [findingsGo, findingsAbort]
    cases e.getProp "description" with
    | none => rfl
    | some d => simpa using ih index imgIds (off + 1)

/-- Whether a batch's payload extraction ends in a TypeError. -/
def batchAborts (b : ImageBatch) : Bool :=
  match batchPayload b with
  | none => false
  | some bd =>
    match bd.getProp "findings" with
    | none => true
    | some fv => if fv.truthy && fv.isArr then findingsAbort fv.items else false

/-- Findings one batch appends, given the global findings count off at the
start of its iteration. -/
def contribFindings (index : ℕ) (b : ImageBatch) (off : ℕ) : List Finding :=
  match batchPayload b with
  | none => []
  | some bd =>
    match bd.getProp "findings" with
    | none => []
    | some fv => (findingsFromValue fv index (b.images.map (fun img => img.id)) off).1

/-- Recommendations one batch appends. -/
def contribRecs (b : ImageBatch) : List Json :=
  match batchPayload b with
  | none => []
  | some bd =>
    match bd.getProp "findings" with
    | none => []
    | some fv =>
      if (if fv.truthy && fv.isArr then findingsAbort fv.items else false) then []
      else
        match bd.getProp "recommendations" with
        | none => []
        | some rv => if rv.truthy && rv.isArr then rv.items else []

/-- The truthy confidence value one batch adds to the running total, when
it reaches that step. -/
def contribConf (b : ImageBatch) : Option Json :=
  match batchPayload b with
  | none => none
  | some bd =>
    match bd.getProp "findings" with
    | none => none
    | some fv =>
      if (if fv.truthy && fv.isArr then findingsAbort fv.items else false) then none
      else
        match bd.getProp "recommendations" with
        | none => none
        | some _ =>
          match bd.getProp "confidence" with
          | none => none
          | some cv => if cv.truthy then some cv else none

/-- The branch-selector flag of findingsFromValue in terms of the items. -/
theorem findingsFromValue_snd (fv : Json) (index : ℕ) (imgIds : List String) (off : ℕ) :
    (findingsFromValue fv index imgIds off).2
      = (if fv.truthy && fv.isArr then findingsAbort fv.items else false) := by
  unfold findingsFromValue
  by_cases h : fv.truthy && fv.isArr
  · simp [h, findingsGo_snd]
  · simp [h]

/-- One forEach iteration equals appending the batch's contributions to
each accumulator (and counting its truthy confidence). -/
theorem processBatchResult_eq (index : ℕ) (b : ImageBatch) (st : AggState) :
    processBatchResult index b st =
      { allFindings := st.allFindings ++ contribFindings index b st.allFindings.length,
        allRecommendations := st.allRecommendations ++ contribRecs b,
        totalConfidence := match contribConf b with
          | none => st.totalConfidence
          | some cv => jsAdd st.totalConfidence cv,
        validBatches := match contribConf b with
          | none => st.validBatches
          | some _ => st.validBatches + 1 } := by
  cases hbp : batchPayload b with
  | none =>
    simp [processBatchResult, contribFindings, contribRecs, contribConf, hbp]
  | some bd =>
    cases hf : bd.getProp "findings" with
    | none =>
      simp [processBatchResult, processPayload, contribFindings, contribRecs, contribConf, hbp, hf]
    | some fv =>
      simp only [processBatchResult, processPayload, contribFindings, contribRecs, contribConf,
        hbp, hf, findingsFromValue_snd]
      by_cases hab : (if fv.truthy && fv.isArr then findingsAbort fv.items else false) = true
      · simp only [hab]
        simp
      · simp only [Bool.not_eq_true] at hab
        simp only [hab]
        cases hr : bd.getProp "recommendations" with
        | none => simp
        | some rv =>
          by_cases hrv : (rv.truthy && rv.isArr) = true
          · simp only [hrv]
            cases hc : bd.getProp "confidence" with
            | none => simp
            | some cv =>
              by_cases hcv : cv.truthy = true
              · simp only [hcv]
                simp
              · simp only [Bool.not_eq_true] at hcv
                simp only [hcv]
                simp
          · simp only [Bool.not_eq_true] at hrv
            simp only [hrv]
            cases hc : bd.getProp "confidence" with
            | none => simp
            | some cv =>
              by_cases hcv : cv.truthy = true
              · simp only [hcv]
                simp
              · simp only [Bool.not_eq_true] at hcv
                simp only [hcv]
                simp

/-! ## Accumulation across the forEach -/

/-- Zero iterations leave the initial accumulators. -/
theorem aggAfter_zero (batches : List ImageBatch) : aggAfter batches 0 = initAgg := rfl

/-- Past the end of the list the truncated fold is the whole fold. -/
theorem aggAfter_of_le (batches : List ImageBatch) (n : ℕ) (h : batches.length ≤ n) :
    aggAfter batches n = finalAgg batches := by
  unfold aggAfter finalAgg
  rw [List.take_of_length_le]
  simpa [List.enum_length] using h

/-- Unfolding one more iteration of the truncated fold. -/
theorem aggAfter_succ (batches : List ImageBatch) (n : ℕ) (h : n < batches.length) :
    aggAfter batches (n + 1)
      = processBatchResult n (batches.get ⟨n, h⟩) (aggAfter batches n) := by
  unfold aggAfter
  have henum : batches.enum.take (n + 1)
      = batches.enum.take n ++ [(n, batches.get ⟨n, h⟩)] := by
    rw [List.take_succ]
    have hg : batches.enum[n]? = some (n, batches.get ⟨n, h⟩) := by
      rw [List.getElem?_enum]
      rw [List.getElem?_eq_getElem h]
      rfl
    rw [hg]
    rfl
  rw [henum, List.foldl_append]
  rfl

/-- Findings added by iteration n sit after the findings accumulated so
far. -/
theorem aggAfter_findings_succ (batches : List ImageBatch) (n : ℕ) (h : n < batches.length) :
    (aggAfter batches (n + 1)).allFindings
      = (aggAfter batches n).allFindings
        ++ contribFindings n (batches.get ⟨n, h⟩) (aggAfter batches n).allFindings.length := by
  rw [aggAfter_succ batches n h, processBatchResult_eq]

/-- The findings list only grows across iterations. -/
theorem aggAfter_findings_mono (batches : List ImageBatch) (n m : ℕ) (hnm : n ≤ m) :
    (aggAfter batches n).allFindings <+: (aggAfter batches m).allFindings := by
  induction m with
  | zero =>
    have : n = 0 := Nat.le_zero.mp hnm
    subst this
    exact List.prefix_rfl
  | succ m ih =>
    rcases Nat.lt_or_ge n (m + 1) with hlt | hge
    · have hle : n ≤ m := Nat.lt_succ_iff.mp hlt
      rcases Nat.lt_or_ge m batches.length with hm | hm
      · exact (ih hle).trans (by rw [aggAfter_findings_succ batches m hm]; exact List.prefix_append _ _)
      · have h1 : aggAfter batches m = finalAgg batches := aggAfter_of_le batches m hm
        have h2 : aggAfter batches (m + 1) = finalAgg batches :=
          aggAfter_of_le batches (m + 1) (le_trans hm (Nat.le_succ m))
        rw [h2, ← h1]
        exact ih hle
    · have : n = m + 1 := le_antisymm hnm hge
      subst this
      exact List.prefix_rfl

/-- The whole fold's findings extend every truncated fold's findings. -/
theorem aggAfter_findings_le_final (batches : List ImageBatch) (n : ℕ) :
    (aggAfter batches n).allFindings <+: (finalAgg batches).allFindings := by
  rcases Nat.lt_or_ge n batches.length with hlt | hge
  · rw [← aggAfter_of_le batches batches.length le_rfl]
    exact aggAfter_findings_mono batches n batches.length (le_of_lt hlt)
  · rw [← aggAfter_of_le batches n hge]

/-- Two folds agree when corresponding elements act identically on every
state. -/
theorem foldl_congr_pointwise {α β : Type} :
    ∀ (l₁ l₂ : List α) (f : β → α → β),
      l₁.length = l₂.length →
      (∀ (i : ℕ) (h₁ : i < l₁.length) (h₂ : i < l₂.length) (st : β),
        f st (l₁.get ⟨i, h₁⟩) = f st (l₂.get ⟨i, h₂⟩)) →
      ∀ st, l₁.foldl f st = l₂.foldl f st := by
  intro l₁
  induction l₁ with
  | nil =>
    intro l₂ f hlen _ st
    cases l₂ with
    | nil => rfl
    | cons b bs => simp at hlen
  | cons a as ih =>
    intro l₂ f hlen hpt st
    cases l₂ with
    | nil => simp at hlen
    | cons b bs =>
      have h0 := hpt 0 (by simp) (by simp) st
      simp only [List.get] at h0
      simp only [List.foldl_cons, h0]
      apply ih bs f (by simpa using hlen)
      intro i h₁ h₂ st'
      exact hpt (i + 1) (by simpa using Nat.succ_lt_succ h₁) (by simpa using Nat.succ_lt_succ h₂) st'

/-- A batch whose guarded payload is none leaves the accumulators alone. -/
theorem processBatchResult_of_payload_none (index : ℕ) (b : ImageBatch) (st : AggState)
    (h : batchPayload b = none) : processBatchResult index b st = st := by
  simp [processBatchResult, h]

/-- A batch that is not completed, or whose stored result does not parse as
JSON, has payload none. -/
theorem batchPayload_none_of_skip (b : ImageBatch)
    (h : b.status ≠ BatchStatus.completed ∨ ∀ raw, b.result = some raw → jsonParse raw = none) :
    batchPayload b = none := by
  unfold batchPayload
  rcases h with hst | hparse
  · have : (b.status == BatchStatus.completed) = false := by
      simpa using hst
    simp [this]
  · cases hres : b.result with
    | none => simp
    | some raw =>
      by_cases hraw : raw = ""
      · subst hraw
        simp
      · have : (raw == "") = false := by simpa using hraw
        simp only [this, Bool.not_false, Bool.and_true]
        split
        · exact hparse raw hres
        · rfl

/-- Emptying the stored result gives payload none. -/
theorem batchPayload_none_of_result_none (b : ImageBatch) (h : b.result = none) :
    batchPayload b = none := by
  unfold batchPayload
  rw [h]
  simp

/-- Replacing one non-contributing batch (in place, preserving positions)
leaves the whole accumulation unchanged. -/
theorem finalAgg_set_skip (bs : List ImageBatch) (j : ℕ) (hj : j < bs.length)
    (hcond : (bs.get ⟨j, hj⟩).status ≠ BatchStatus.completed ∨
      ∀ raw, (bs.get ⟨j, hj⟩).result = some raw → jsonParse raw = none) :
    finalAgg bs = finalAgg (bs.set j { bs.get ⟨j, hj⟩ with result := none }) := by
  unfold finalAgg
  apply foldl_congr_pointwise
  · simp [List.enum_length]
  · intro i h₁ h₂ st
    have h₁' : i < bs.length := by simpa [List.enum_length] using h₁
    have h₂' : i < (bs.set j { bs.get ⟨j, hj⟩ with result := none }).length := by
      simpa [List.enum_length] using h₂
    have e₁ : bs.enum.get ⟨i, h₁⟩ = (i, bs.get ⟨i, h₁'⟩) := by
      simp [List.get_eq_getElem, List.getElem_enum]
    have e₂ : (bs.set j { bs.get ⟨j, hj⟩ with result := none }).enum.get ⟨i, h₂⟩
        = (i, (bs.set j { bs.get ⟨j, hj⟩ with result := none }).get ⟨i, h₂'⟩) := by
      simp [List.get_eq_getElem, List.getElem_enum]
    rw [e₁, e₂]
    by_cases hij : j = i
    · subst hij
      have hset : (bs.set j { bs.get ⟨j, hj⟩ with result := none }).get ⟨j, h₂'⟩
          = { bs.get ⟨j, hj⟩ with result := none } := by
        simp [List.get_eq_getElem, List.getElem_set]
      rw [hset]
      rw [processBatchResult_of_payload_none j _ st (batchPayload_none_of_skip _ hcond)]
      rw [processBatchResult_of_payload_none j _ st (batchPayload_none_of_result_none _ rfl)]
    · have hset : (bs.set j { bs.get ⟨j, hj⟩ with result := none }).get ⟨i, h₂'⟩
          = bs.get ⟨i, h₁'⟩ := by
        simp [List.get_eq_getElem, List.getElem_set, hij]
      rw [hset]

/-- C10: compileFinalReport is a total function of the batch sequence — in
particular it is defined on the empty sequence, on absent or non-JSON
result payloads, and on payloads with missing or non-array findings or
recommendations fields, the model of the source never throwing — and a
batch that is not completed, or whose payload fails to parse, contributes
nothing to the findings, recommendations or confidence of the Report:
emptying such a batch's stored result changes none of those three fields,
and the empty sequence yields the neutral report values. -/
theorem compileFinalReport_total_skip (sessionId : String) (bs : List ImageBatch)
    (patientId : Option String) (now : Int) (j : ℕ) (hj : j < bs.length)
    (hcond : (bs.get ⟨j, hj⟩).status ≠ BatchStatus.completed ∨
      ∀ raw, (bs.get ⟨j, hj⟩).result = some raw → jsonParse raw = none) :
    ((compileFinalReport sessionId bs patientId now).findings
        = (compileFinalReport sessionId (bs.set j { bs.get ⟨j, hj⟩ with result := none })
            patientId now).findings ∧
      (compileFinalReport sessionId bs patientId now).recommendations
        = (compileFinalReport sessionId (bs.set j { bs.get ⟨j, hj⟩ with result := none })
            patientId now).recommendations ∧
      (compileFinalReport sessionId bs patientId now).confidence
        = (compileFinalReport sessionId (bs.set j { bs.get ⟨j, hj⟩ with result := none })
            patientId now).confidence) ∧
    ((compileFinalReport sessionId [] patientId now).findings = [] ∧
      (compileFinalReport sessionId [] patientId now).recommendations = [] ∧
      (compileFinalReport sessionId [] patientId now).confidence = some 0 ∧
      (compileFinalReport sessionId [] patientId now).imageCount = 0) := by
  have h := finalAgg_set_skip bs j hj hcond
  constructor
  · refine ⟨?_, ?_, ?_⟩ <;> simp only [compileFinalReport] <;> rw [h]
  · exact ⟨rfl, rfl, rfl, rfl⟩

/-- A concrete completed batch with a parseable confidence payload. -/
def wOkBatch : ImageBatch :=
  { id := "b0", images := [], status := BatchStatus.completed, batchNumber := 1,
    totalBatches := 2, processedAt := some 5,
    result := some "\x7b\"confidence\": 80\x7d", error := none }

/-- A concrete errored batch with no result. -/
def wErrBatch : ImageBatch :=
  { id := "b1", images := [], status := BatchStatus.error, batchNumber := 2,
    totalBatches := 2, processedAt := none, result := none, error := some "boom" }

/-- Witness for C10 at a concrete input: a completed batch next to an
errored one; neutralizing the errored batch leaves the confidence field
unchanged. -/
theorem compileFinalReport_total_skip_witness :
    (compileFinalReport "s" [wOkBatch, wErrBatch] none 0).confidence
      = (compileFinalReport "s"
          ([wOkBatch, wErrBatch].set 1
            { [wOkBatch, wErrBatch].get ⟨1, by decide⟩ with result := none })
          none 0).confidence :=
  (compileFinalReport_total_skip "s" [wOkBatch, wErrBatch] none 0 1 (by decide)
    (Or.inl (by decide))).1.2.2

/-! ## Confidence accounting -/

/-- Property access yields none exactly on the null payload. -/
theorem getProp_none_iff (v : Json) (k : String) : v.getProp k = none ↔ v = Json.null := by
  cases v <;> simp [Json.getProp]

/-- Claim-side view of one batch's confidence: the value the specification
counts, namely a truthy (nonzero) numeric confidence in a completed,
parseable payload. -/
def suppliedConfidence (b : ImageBatch) : Option DecNum :=
  match batchPayload b with
  | none => none
  | some bd =>
    match bd.getProp "confidence" with
    | some (Json.num d) => if d.mant = 0 then none else some d
    | _ => none

/-- Payloads free of the JavaScript coercion corners: no findings item is
null (which would abort extraction before the confidence step) and any
truthy confidence is an actual number (a truthy non-number would switch
the running total to string concatenation). -/
def tameBatch (b : ImageBatch) : Bool :=
  match batchPayload b with
  | none => true
  | some bd =>
    (match bd.getProp "findings" with
     | none => true
     | some fv => !(fv.truthy && fv.isArr) || !(findingsAbort fv.items)) &&
    (match bd.getProp "confidence" with
     | none => true
     | some cv => !cv.truthy || (match cv with | Json.num _ => true | _ => false))

/-- On tame batches the value the iteration adds is exactly the claim-side
supplied confidence. -/
theorem contribConf_of_tame (b : ImageBatch) (ht : tameBatch b = true) :
    contribConf b = (suppliedConfidence b).map Json.num := by
  unfold tameBatch at ht
  unfold contribConf suppliedConfidence
  cases hbp : batchPayload b with
  | none => simp
  | some bd =>
    simp only [hbp] at ht ⊢
    cases hf : bd.getProp "findings" with
    | none =>
      have hbd : bd = Json.null := (getProp_none_iff bd "findings").mp hf
      subst hbd
      simp [Json.getProp]
    | some fv =>
      have hbd : bd ≠ Json.null := by
        intro hc
        subst hc
        simp [Json.getProp] at hf
      simp only [hf, Bool.and_eq_true] at ht
      obtain ⟨htf, htc⟩ := ht
      have hnoab : (if fv.truthy && fv.isArr then findingsAbort fv.items else false) = false := by
        by_cases hta : (fv.truthy && fv.isArr) = true
        · rw [hta] at htf
          simp only [Bool.not_true, Bool.false_or, Bool.not_eq_true'] at htf
          simp [hta, htf]
        · simp only [Bool.not_eq_true] at hta
          simp [hta]
      simp only [hnoab]
      cases hr : bd.getProp "recommendations" with
      | none => exact absurd ((getProp_none_iff bd "recommendations").mp hr) hbd
      | some rv =>
        simp only [hr]
        cases hc : bd.getProp "confidence" with
        | none => exact absurd ((getProp_none_iff bd "confidence").mp hc) hbd
        | some cv =>
          simp only [hc] at htc ⊢
          cases cv with
          | num d =>
            simp only [Json.truthy]
            by_cases hd : d.mant = 0
            · simp [hd]
            · have hd' : (d.mant == 0) = false := by simpa using hd
              simp [hd', hd]
          | null => simp [Json.truthy]
          | bool bb =>
            cases bb with
            | false => simp [Json.truthy]
            | true => simp [Json.truthy] at htc
          | str ss =>
            by_cases hss : ss = ""
            · subst hss
              simp [Json.truthy]
            · have hss' : (ss == "") = false := by simpa using hss
              simp [Json.truthy, hss'] at htc
          | arr xs => simp [Json.truthy] at htc
          | obj ms => simp [Json.truthy] at htc

/-- Over any run of tame batches the running total stays numeric and adds
exactly the supplied confidences, and the valid-batch counter counts
them. -/
theorem fold_conf_general :
    ∀ (ps : List (ℕ × ImageBatch)) (st : AggState) (d0 : DecNum),
      (∀ p ∈ ps, tameBatch p.2 = true) →
      st.totalConfidence = JsNum.num d0 →
      ((ps.foldl (fun st p => processBatchResult p.1 p.2 st) st).totalConfidence
          = JsNum.num (((ps.map Prod.snd).filterMap suppliedConfidence).foldl DecNum.add d0) ∧
        (ps.foldl (fun st p => processBatchResult p.1 p.2 st) st).validBatches
          = st.validBatches + ((ps.map Prod.snd).filterMap suppliedConfidence).length) := by
  intro ps
  induction ps with
  | nil =>
    intro st d0 _ h0
    simpa using h0
  | cons p rest ih =>
    intro st d0 htame h0
    have htp : tameBatch p.2 = true := htame p (List.mem_cons_self p rest)
    have htr : ∀ q ∈ rest, tameBatch q.2 = true :=
      fun q hq => htame q (List.mem_cons_of_mem p hq)
    have hstep := processBatchResult_eq p.1 p.2 st
    have hcc := contribConf_of_tame p.2 htp
    simp only [List.foldl_cons, List.map_cons]
    cases hsc : suppliedConfidence p.2 with
    | none =>
      have hcc' : contribConf p.2 = none := by rw [hcc, hsc]; rfl
      have h1 : (processBatchResult p.1 p.2 st).totalConfidence = JsNum.num d0 := by
        rw [hstep]
        simp only [hcc']
        exact h0
      have h2 : (processBatchResult p.1 p.2 st).validBatches = st.validBatches := by
        rw [hstep]
        simp only [hcc']
      obtain ⟨hA, hB⟩ := ih (processBatchResult p.1 p.2 st) d0 htr h1
      constructor
      · rw [hA]
        simp [List.filterMap_cons, hsc]
      · rw [hB, h2]
        simp [List.filterMap_cons, hsc]
    | some d =>
      have hcc' : contribConf p.2 = some (Json.num d) := by rw [hcc, hsc]; rfl
      have h1 : (processBatchResult p.1 p.2 st).totalConfidence = JsNum.num (d0.add d) := by
        rw [hstep]
        simp only [hcc']
        rw [h0]
        rfl
      have h2 : (processBatchResult p.1 p.2 st).validBatches = st.validBatches + 1 := by
        rw [hstep]
        simp only [hcc']
      obtain ⟨hA, hB⟩ := ih (processBatchResult p.1 p.2 st) (d0.add d) htr h1
      constructor
      · rw [hA]
        simp [List.filterMap_cons, hsc]
      · rw [hB, h2]
        simp only [List.filterMap_cons, hsc, List.length_cons]
        omega

/-- Claim-side overall confidence: the Math.round of the arithmetic mean of
the supplied (truthy numeric) confidences of the batches, or zero when no
batch supplied one. -/
def specConfidence (bs : List ImageBatch) : ℤ :=
  let ds := bs.filterMap suppliedConfidence
  if ds.length = 0 then 0
  else (ds.foldl DecNum.add ⟨0, 0⟩).jsRoundDiv ds.length

/-- C4 (amended): for every terminal batch sequence whose payloads are free
of the JavaScript coercion corners (tame), the Report's overall confidence
equals the rounded arithmetic mean of the confidence values of exactly
those completed batches whose parsed payload supplied a truthy numeric
confidence — zero and non-numeric confidence values do not count toward
the numerator or denominator — and equals zero when no batch supplied
one. -/
theorem confidence_mean_amended (sessionId : String) (bs : List ImageBatch)
    (patientId : Option String) (now : Int)
    (ht : ∀ b ∈ bs, tameBatch b = true) :
    (compileFinalReport sessionId bs patientId now).confidence = some (specConfidence bs) := by
  have htp : ∀ p ∈ bs.enum, tameBatch p.2 = true := by
    intro p hp
    exact ht p.2 (List.snd_mem_of_mem_enum hp)
  have hfold := fold_conf_general bs.enum initAgg ⟨0, 0⟩ htp rfl
  have hmap : bs.enum.map Prod.snd = bs := List.enum_map_snd bs
  rw [hmap] at hfold
  obtain ⟨hA, hB⟩ := hfold
  show (let st := finalAgg bs;
    if st.validBatches > 0 then jsRoundDivTotal st.totalConfidence st.validBatches else some 0)
      = some (specConfidence bs)
  have hA' : (finalAgg bs).totalConfidence
      = JsNum.num ((bs.filterMap suppliedConfidence).foldl DecNum.add ⟨0, 0⟩) := hA
  have hB' : (finalAgg bs).validBatches = (bs.filterMap suppliedConfidence).length := by
    simpa [initAgg] using hB
  simp only [hA', hB', specConfidence]
  by_cases hz : (bs.filterMap suppliedConfidence).length = 0
  · simp [hz]
  · have hpos : (bs.filterMap suppliedConfidence).length > 0 := Nat.pos_of_ne_zero hz
    simp [hz, hpos, jsRoundDivTotal]

/-- A concrete completed batch with no images and a given raw reply. -/
def completedBatch (bid raw : String) (t : Int) : ImageBatch :=
  { id := bid, images := [], status := BatchStatus.completed, batchNumber := 1,
    totalBatches := 1, processedAt := some t, result := some raw, error := none }

/-- Counterexample to C4 as stated: two completed batches supply the
parseable numeric confidences 0 and 80; the claimed value is the rounded
mean round ((0 + 80) / 2) = 40, but the code's truthiness guard drops the
zero and the Report carries 80. -/
theorem confidence_mean_counterexample :
    (compileFinalReport "s"
        [completedBatch "b0" "\x7b\"confidence\": 0\x7d" 1,
         completedBatch "b1" "\x7b\"confidence\": 80\x7d" 2] none 0).confidence = some 80 ∧
    DecNum.jsRoundDiv (DecNum.add (DecNum.add ⟨0, 0⟩ ⟨0, 0⟩) ⟨80, 0⟩) 2 = 40 ∧
    (80 : ℤ) ≠ 40 := by
  refine ⟨by decide, by decide, by decide⟩

/-- Witness for C4 (amended) at the specification's own example: batches
with confidences 80, 90 and an unparseable reply average to 85 over two
valid batches. -/
theorem confidence_mean_amended_witness :
    (∀ b ∈ [completedBatch "b0" "\x7b\"confidence\": 80\x7d" 1,
            completedBatch "b1" "\x7b\"confidence\": 90\x7d" 2,
            completedBatch "b2" "not json" 3], tameBatch b = true) ∧
    (compileFinalReport "s"
        [completedBatch "b0" "\x7b\"confidence\": 80\x7d" 1,
         completedBatch "b1" "\x7b\"confidence\": 90\x7d" 2,
         completedBatch "b2" "not json" 3] none 0).confidence = some 85 :=
  ⟨by decide,
   (confidence_mean_amended "s" _ none 0 (by decide)).trans (by decide)⟩

/-! ## Strict parsing of batch replies -/

/-- Counterexample to C5 as stated: the object between the braces parses
on its own and holds a findings array of the expected shape, yet with the
same object embedded in surrounding prose the aggregator extracts nothing —
JSON.parse rejects the whole reply, so the batch contributes neither
findings nor confidence. -/
theorem prose_extraction_counterexample :
    jsonParse "\x7b\"findings\": [\x7b\"description\": \"Nodule\"\x7d], \"confidence\": 90\x7d"
      = some (Json.obj [("findings", Json.arr [Json.obj [("description", Json.str "Nodule")]]),
                        ("confidence", Json.num ⟨90, 0⟩)]) ∧
    jsonParse ("Here is the analysis: "
        ++ "\x7b\"findings\": [\x7b\"description\": \"Nodule\"\x7d], \"confidence\": 90\x7d") = none ∧
    (compileFinalReport "s"
        [completedBatch "b0" ("Here is the analysis: "
          ++ "\x7b\"findings\": [\x7b\"description\": \"Nodule\"\x7d], \"confidence\": 90\x7d") 1]
        none 0).findings = [] ∧
    (compileFinalReport "s"
        [completedBatch "b0" ("Here is the analysis: "
          ++ "\x7b\"findings\": [\x7b\"description\": \"Nodule\"\x7d], \"confidence\": 90\x7d") 1]
        none 0).confidence = some 0 :=
  ⟨rfl, rfl, rfl, rfl⟩

/-- An identity fold over batches whose guarded payload is none. -/
theorem foldl_agg_id_of_none :
    ∀ (ps : List (ℕ × ImageBatch)) (st : AggState),
      (∀ p ∈ ps, batchPayload p.2 = none) →
      ps.foldl (fun st p => processBatchResult p.1 p.2 st) st = st := by
  intro ps
  induction ps with
  | nil => intro st _; rfl
  | cons p rest ih =>
    intro st hall
    simp only [List.foldl_cons]
    rw [processBatchResult_of_payload_none p.1 p.2 st (hall p (List.mem_cons_self p rest))]
    exact ih st (fun q hq => hall q (List.mem_cons_of_mem p hq))

/-- C5 (amended): the aggregator parses a completed batch's raw reply with
strict whole-reply JSON parsing — a reply whose JSON object is embedded in
surrounding prose fails to parse, and every batch in a run of such replies
contributes nothing (empty findings and recommendations, zero confidence) —
while within a successfully parsed payload the extractor is defensive: a
findings or recommendations field that is missing or not an array simply
contributes nothing instead of failing. -/
theorem prose_strict_parse_amended :
    (∀ (sessionId : String) (bs : List ImageBatch) (patientId : Option String) (now : Int),
      (∀ b ∈ bs, ∀ raw, b.result = some raw → jsonParse raw = none) →
      (compileFinalReport sessionId bs patientId now).findings = [] ∧
      (compileFinalReport sessionId bs patientId now).recommendations = [] ∧
      (compileFinalReport sessionId bs patientId now).confidence = some 0) ∧
    (∀ (index : ℕ) (b : ImageBatch) (off : ℕ) (bd fv : Json),
      batchPayload b = some bd → bd.getProp "findings" = some fv → fv.isArr = false →
      contribFindings index b off = []) ∧
    (∀ (b : ImageBatch) (bd rv : Json),
      batchPayload b = some bd → bd.getProp "recommendations" = some rv → rv.isArr = false →
      contribRecs b = []) := by
  refine ⟨?_, ?_, ?_⟩
  · intro sessionId bs patientId now hall
    have hnone : ∀ p ∈ bs.enum, batchPayload p.2 = none := by
      intro p hp
      exact batchPayload_none_of_skip p.2
        (Or.inr (hall p.2 (List.snd_mem_of_mem_enum hp)))
    have hfin : finalAgg bs = initAgg := foldl_agg_id_of_none bs.enum initAgg hnone
    refine ⟨?_, ?_, ?_⟩ <;> simp [compileFinalReport, hfin, initAgg, jsDedup]
  · intro index b off bd fv hbp hf hna
    unfold contribFindings
    simp only [hbp, hf]
    unfold findingsFromValue
    simp [hna]
  · intro b bd rv hbp hr hna
    unfold contribRecs
    simp only [hbp]
    cases hf : bd.getProp "findings" with
    | none => rfl
    | some fv =>
      simp only [hr]
      by_cases hab : (if fv.truthy && fv.isArr then findingsAbort fv.items else false) = true
      · simp [hab, hna]
      · simp only [Bool.not_eq_true] at hab
        simp [hab, hna]

/-- Witness for C5 (amended) at a concrete input: one completed batch whose
reply embeds its JSON in prose yields the neutral aggregates. -/
theorem prose_strict_parse_amended_witness :
    (compileFinalReport "w5" [completedBatch "b0" "Report: \x7b\"confidence\": 90\x7d" 7]
        none 0).findings = [] ∧
    (compileFinalReport "w5" [completedBatch "b0" "Report: \x7b\"confidence\": 90\x7d" 7]
        none 0).recommendations = [] ∧
    (compileFinalReport "w5" [completedBatch "b0" "Report: \x7b\"confidence\": 90\x7d" 7]
        none 0).confidence = some 0 :=
  prose_strict_parse_amended.1 "w5"
    [completedBatch "b0" "Report: \x7b\"confidence\": 90\x7d" 7] none 0
    (by
      intro b hb raw hraw
      rw [List.mem_singleton] at hb
      subst hb
      cases hraw
      rfl)

/-! ## Processing time -/

/-- A concrete errored first batch with no completion timestamp. -/
def errFirstBatch : ImageBatch :=
  { id := "e0", images := [], status := BatchStatus.error, batchNumber := 1,
    totalBatches := 2, processedAt := none, result := none, error := some "boom" }

/-- Counterexample to C6 as stated: the second batch completed (at time
1000), so by the claim the processing time is a difference of completion
timestamps — independent of the current time, with zero fallback — yet the
code computes 1000 minus now because the first batch of the sequence has
no completion timestamp, and the result changes with the clock. -/
theorem processing_time_counterexample :
    (errFirstBatch.status = BatchStatus.error ∧
      (completedBatch "ok" "\x7b\x7d" 1000).status = BatchStatus.completed) ∧
    (compileFinalReport "s" [errFirstBatch, completedBatch "ok" "\x7b\x7d" 1000]
        none 5000).processingTime = -4000 ∧
    (compileFinalReport "s" [errFirstBatch, completedBatch "ok" "\x7b\x7d" 1000]
        none 2000).processingTime = -1000 ∧
    ((-4000 : Int) ≠ -1000) :=
  ⟨⟨rfl, rfl⟩, rfl, rfl, by decide⟩

/-- C6 (amended): processingTime is the completion timestamp of the last
batch of the sequence minus that of the first batch of the sequence, where
an endpoint falls back to the current time whenever that endpoint batch
has no completion timestamp (for instance because it errored), even if
other batches completed. -/
theorem processing_time_amended (sessionId : String) (bs : List ImageBatch)
    (patientId : Option String) (now : Int) :
    (∀ t0 t1 : Int,
      bs.head?.bind (fun b => b.processedAt) = some t0 →
      bs.getLast?.bind (fun b => b.processedAt) = some t1 →
      (compileFinalReport sessionId bs patientId now).processingTime = t1 - t0) ∧
    (bs.head?.bind (fun b => b.processedAt) = none →
      (compileFinalReport sessionId bs patientId now).processingTime
        = (bs.getLast?.bind (fun b => b.processedAt)).getD now - now) ∧
    (bs.getLast?.bind (fun b => b.processedAt) = none →
      (compileFinalReport sessionId bs patientId now).processingTime
        = now - (bs.head?.bind (fun b => b.processedAt)).getD now) := by
  refine ⟨?_, ?_, ?_⟩
  · intro t0 t1 h0 h1
    simp [compileFinalReport, h0, h1]
  · intro h0
    simp [compileFinalReport, h0]
  · intro h1
    simp [compileFinalReport, h1]

/-- Witness for C6 (amended): two completed batches stamped 100 and 350
give processing time 250. -/
theorem processing_time_amended_witness :
    (compileFinalReport "w6"
        [completedBatch "a" "\x7b\x7d" 100, completedBatch "b" "\x7b\x7d" 350]
        none 9999).processingTime = 350 - 100 :=
  (processing_time_amended "w6"
      [completedBatch "a" "\x7b\x7d" 100, completedBatch "b" "\x7b\x7d" 350]
      none 9999).1 100 350 rfl rfl

/-! ## Summary text -/

/-- Claim-side summary template: a function of the image count, the batch
count, the four per-severity counts in priority order (each omitted when
zero) and whether the findings list is empty — no other feature of the
findings reaches the text. -/
def summaryOfStats (imageCount batchCount c h m l : ℕ) (noFindings : Bool) : String :=
  let s0 := "Comprehensive diagnostic analysis of " ++ toString imageCount ++
    " medical images processed across " ++ toString batchCount ++ " batches. "
  let s1 := if c > 0 then
      s0 ++ "CRITICAL: " ++ toString c ++
        " critical finding(s) identified requiring immediate attention. "
    else s0
  let s2 := if h > 0 then s1 ++ toString h ++ " high-severity finding(s) noted. " else s1
  let s3 := if m > 0 then s2 ++ toString m ++ " moderate finding(s) observed. " else s2
  let s4 := if l > 0 then s3 ++ toString l ++ " low-severity observation(s) documented. " else s3
  let s5 := if noFindings then
      s4 ++ "No significant abnormalities detected in the analyzed images. "
    else s4
  s5 ++ "Detailed findings and recommendations are provided below for clinical consideration."

/-- C8 (amended): the comprehensive summary is a deterministic function of
the total image count, the batch count, the four per-severity finding
counts (mentioned in the order critical, high, moderate, low, each omitted
when zero) and the emptiness of the findings list; the no-abnormalities
sentence appears exactly when the findings list is empty.  (A finding with
a severity outside the four categories keeps the list non-empty while
counting toward no category, which is why emptiness is a separate input.) -/
theorem summary_function_of_stats (findings : List Finding) (imageCount batchCount : ℕ) :
    generateComprehensiveSummary findings imageCount batchCount
      = summaryOfStats imageCount batchCount
          (countSeverity findings "critical") (countSeverity findings "high")
          (countSeverity findings "moderate") (countSeverity findings "low")
          findings.isEmpty := by
  unfold generateComprehensiveSummary summaryOfStats
  by_cases hfe : findings = []
  · subst hfe
    rfl
  · have h1 : ¬ (findings.length = 0) := by simpa [List.length_eq_zero] using hfe
    have h2 : findings.isEmpty = false := by
      simpa [List.isEmpty_iff] using hfe
    simp only [h1, h2, if_false, Bool.false_eq_true]

/-- A run whose one completed batch reports an empty findings array. -/
def summaryRunA : DiagnosticReport :=
  compileFinalReport "s" [completedBatch "a" "\x7b\"findings\": []\x7d" 1] none 0

/-- A run whose one completed batch reports a single finding with a
severity outside the four categories. -/
def summaryRunB : DiagnosticReport :=
  compileFinalReport "s"
    [completedBatch "a" "\x7b\"findings\": [\x7b\"severity\": \"indeterminate\"\x7d]\x7d" 1] none 0

/-- Counterexample to C8 as stated: the two runs agree on total image
count, batch count (one each) and all four per-severity finding counts
(all zero), yet their summaries differ — the no-abnormalities sentence
keys on emptiness of the findings list, which a finding of unrecognized
severity defeats — so the summary is not a function of the image count,
batch count and per-severity counts alone. -/
theorem summary_counterexample :
    summaryRunA.imageCount = summaryRunB.imageCount ∧
    countSeverity summaryRunA.findings "critical" = countSeverity summaryRunB.findings "critical" ∧
    countSeverity summaryRunA.findings "high" = countSeverity summaryRunB.findings "high" ∧
    countSeverity summaryRunA.findings "moderate" = countSeverity summaryRunB.findings "moderate" ∧
    countSeverity summaryRunA.findings "low" = countSeverity summaryRunB.findings "low" ∧
    summaryRunA.summary ≠ summaryRunB.summary := by
  refine ⟨rfl, rfl, rfl, rfl, rfl, by decide⟩

/-! ## Recommendation deduplication -/

/-- Claim-side deduplication: keep each element whose value (SameValueZero)
has not been seen before, scanning left to right. -/
def keepFirst (seen : List Json) : List Json → List Json
  | [] => []
  | v :: rest =>
    if seen.any (fun w => jsSameValueZero w v) then keepFirst seen rest
    else v :: keepFirst (v :: seen) rest

/-- keepFirst depends on the seen set only through membership answers. -/
theorem keepFirst_congr :
    ∀ (l : List Json) (seen₁ seen₂ : List Json),
      (∀ v, seen₁.any (fun w => jsSameValueZero w v) = seen₂.any (fun w => jsSameValueZero w v)) →
      keepFirst seen₁ l = keepFirst seen₂ l := by
  intro l
  induction l with
  | nil => intro seen₁ seen₂ _; rfl
  | cons v rest ih =>
    intro seen₁ seen₂ hmem
    simp only [keepFirst, hmem v]
    by_cases hv : seen₂.any (fun w => jsSameValueZero w v) = true
    · simp only [hv, if_true]
      exact ih seen₁ seen₂ hmem
    · simp only [Bool.not_eq_true] at hv
      simp only [hv, if_false, Bool.false_eq_true]
      have : ∀ u, (v :: seen₁).any (fun w => jsSameValueZero w u)
          = (v :: seen₂).any (fun w => jsSameValueZero w u) := by
        intro u
        simp [List.any_cons, hmem u]
      rw [ih (v :: seen₁) (v :: seen₂) this]

/-- The accumulator fold of jsDedup appends exactly the unseen-first
elements. -/
theorem jsDedup_go :
    ∀ (l acc : List Json),
      l.foldl (fun acc v => if acc.any (fun w => jsSameValueZero w v) then acc else acc ++ [v]) acc
        = acc ++ keepFirst acc l := by
  intro l
  induction l with
  | nil => intro acc; simp [keepFirst]
  | cons v rest ih =>
    intro acc
    simp only [List.foldl_cons, keepFirst]
    by_cases hv : acc.any (fun w => jsSameValueZero w v) = true
    · simp only [hv, if_true]
      exact ih acc
    · simp only [Bool.not_eq_true] at hv
      simp only [hv, if_false, Bool.false_eq_true]
      rw [ih (acc ++ [v])]
      have hseen : keepFirst (acc ++ [v]) rest = keepFirst (v :: acc) rest := by
        apply keepFirst_congr
        intro u
        simp [List.any_append, List.any_cons, Bool.or_comm]
      rw [hseen]
      simp

/-- jsDedup keeps exactly the first occurrence of each value. -/
theorem jsDedup_eq_keepFirst (l : List Json) : jsDedup l = keepFirst [] l := by
  unfold jsDedup
  simpa using jsDedup_go l []

/-- Occurrences of a given recommendation string in a list of parsed
values. -/
def countStrOcc (l : List Json) (s : String) : ℕ :=
  (l.filter (fun w => jsSameValueZero w (Json.str s))).length

/-- A value that SameValueZero-matches a string is that string. -/
theorem sameValueZero_str_eq (w : Json) (s : String)
    (h : jsSameValueZero w (Json.str s) = true) : w = Json.str s := by
  cases w <;> simp [jsSameValueZero] at h
  subst h
  rfl

/-- Occurrence counting distributes over cons. -/
theorem countStrOcc_cons (v : Json) (l : List Json) (s : String) :
    countStrOcc (v :: l) s
      = (if jsSameValueZero v (Json.str s) then 1 else 0) + countStrOcc l s := by
  by_cases h : jsSameValueZero v (Json.str s) = true <;>
    simp [countStrOcc, List.filter_cons, h, Nat.add_comm]

/-- After deduplication a string that was present at all is present exactly
once (when the seen set does not already contain it). -/
theorem keepFirst_countStr :
    ∀ (l seen : List Json) (s : String),
      countStrOcc (keepFirst seen l) s
        = if seen.any (fun w => jsSameValueZero w (Json.str s)) then 0
          else min (countStrOcc l s) 1 := by
  intro l
  induction l with
  | nil =>
    intro seen s
    by_cases h : seen.any (fun w => jsSameValueZero w (Json.str s)) = true <;>
      simp [keepFirst, countStrOcc, h]
  | cons v rest ih =>
    intro seen s
    by_cases hvs : jsSameValueZero v (Json.str s) = true
    · have hv' : v = Json.str s := sameValueZero_str_eq v s hvs
      subst hv'
      by_cases hseen : seen.any (fun w => jsSameValueZero w (Json.str s)) = true
      · simp only [keepFirst, hseen, if_true]
        rw [ih seen s]
        simp [hseen]
      · simp only [Bool.not_eq_true] at hseen
        simp only [keepFirst, hseen, if_false, Bool.false_eq_true]
        rw [countStrOcc_cons, ih (Json.str s :: seen) s, countStrOcc_cons]
        have hvmem : (Json.str s :: seen).any (fun w => jsSameValueZero w (Json.str s)) = true := by
          simp [List.any_cons, jsSameValueZero]
        simp only [hvmem, if_true, hseen, if_false, hvs]
        simp
    · simp only [Bool.not_eq_true] at hvs
      by_cases hvseen : seen.any (fun w => jsSameValueZero w v) = true
      · simp only [keepFirst, hvseen, if_true]
        rw [ih seen s, countStrOcc_cons]
        simp [hvs]
      · simp only [Bool.not_eq_true] at hvseen
        simp only [keepFirst, hvseen, if_false, Bool.false_eq_true]
        rw [countStrOcc_cons, ih (v :: seen) s, countStrOcc_cons]
        have hsame : (v :: seen).any (fun w => jsSameValueZero w (Json.str s))
            = seen.any (fun w => jsSameValueZero w (Json.str s)) := by
          simp [List.any_cons, hvs]
        rw [hsame]
        by_cases hseen : seen.any (fun w => jsSameValueZero w (Json.str s)) = true
        · simp [hseen, hvs]
        · simp only [Bool.not_eq_true] at hseen
          simp [hseen, hvs]

/-- keepFirst selects a subsequence. -/
theorem keepFirst_sublist : ∀ (l seen : List Json), List.Sublist (keepFirst seen l) l := by
  intro l
  induction l with
  | nil => intro seen; simp [keepFirst]
  | cons v rest ih =>
    intro seen
    simp only [keepFirst]
    by_cases hv : seen.any (fun w => jsSameValueZero w v) = true
    · simp only [hv, if_true]
      exact (ih seen).cons v
    · simp only [Bool.not_eq_true] at hv
      simp only [hv, if_false, Bool.false_eq_true]
      exact (ih (v :: seen)).cons₂ v

/-- The collected recommendations are the per-batch contributions
concatenated in run order. -/
theorem fold_recs_general :
    ∀ (ps : List (ℕ × ImageBatch)) (st : AggState),
      (ps.foldl (fun st p => processBatchResult p.1 p.2 st) st).allRecommendations
        = st.allRecommendations ++ (ps.map (fun p => contribRecs p.2)).flatten := by
  intro ps
  induction ps with
  | nil => intro st; simp
  | cons p rest ih =>
    intro st
    simp only [List.foldl_cons, List.map_cons, List.flatten_cons]
    rw [ih (processBatchResult p.1 p.2 st), processBatchResult_eq]
    simp [List.append_assoc]

/-- Collected recommendations of a whole run. -/
theorem finalAgg_recs (batches : List ImageBatch) :
    (finalAgg batches).allRecommendations = (batches.map contribRecs).flatten := by
  unfold finalAgg
  rw [fold_recs_general batches.enum initAgg]
  have hmap : batches.enum.map (fun p => contribRecs p.2) = batches.map contribRecs := by
    rw [show (fun p : ℕ × ImageBatch => contribRecs p.2) = contribRecs ∘ Prod.snd from rfl]
    rw [← List.map_map, List.enum_map_snd]
  rw [hmap]
  rfl

/-- C9: the Report's recommendations are the per-batch recommendation
contributions of the completed batches, concatenated in run order and
deduplicated by keeping exactly the first occurrence of each value: the
result is a subsequence of the raw concatenation, and every recommendation
string occurring in it at all occurs exactly once (case-sensitive exact
string equality), at the position its first occurrence induces. -/
theorem recommendations_dedup (sessionId : String) (bs : List ImageBatch)
    (patientId : Option String) (now : Int) :
    (compileFinalReport sessionId bs patientId now).recommendations
        = keepFirst [] ((bs.map contribRecs).flatten) ∧
    List.Sublist (compileFinalReport sessionId bs patientId now).recommendations
        ((bs.map contribRecs).flatten) ∧
    (∀ s : String, 0 < countStrOcc ((bs.map contribRecs).flatten) s →
      countStrOcc (compileFinalReport sessionId bs patientId now).recommendations s = 1) ∧
    (∀ s : String, countStrOcc ((bs.map contribRecs).flatten) s = 0 →
      countStrOcc (compileFinalReport sessionId bs patientId now).recommendations s = 0) := by
  have hrecs : (compileFinalReport sessionId bs patientId now).recommendations
      = keepFirst [] ((bs.map contribRecs).flatten) := by
    show jsDedup (finalAgg bs).allRecommendations = _
    rw [finalAgg_recs, jsDedup_eq_keepFirst]
  refine ⟨hrecs, ?_, ?_, ?_⟩
  · rw [hrecs]
    exact keepFirst_sublist _ []
  · intro s hpos
    rw [hrecs, keepFirst_countStr]
    simp only [List.any_nil, if_false, Bool.false_eq_true]
    omega
  · intro s hzero
    rw [hrecs, keepFirst_countStr]
    simp only [List.any_nil, if_false, Bool.false_eq_true]
    omega

/-- Witness for C9: two batches both recommending the follow-up CT string
yield exactly one occurrence in the final Report. -/
theorem recommendations_dedup_witness :
    0 < countStrOcc (([completedBatch "a" "\x7b\"recommendations\": [\"Follow-up CT recommended\"]\x7d" 1,
        completedBatch "b" "\x7b\"recommendations\": [\"Follow-up CT recommended\", \"MRI advised\"]\x7d" 2].map
          contribRecs).flatten) "Follow-up CT recommended" ∧
    countStrOcc (compileFinalReport "w9"
        [completedBatch "a" "\x7b\"recommendations\": [\"Follow-up CT recommended\"]\x7d" 1,
         completedBatch "b" "\x7b\"recommendations\": [\"Follow-up CT recommended\", \"MRI advised\"]\x7d" 2]
        none 0).recommendations "Follow-up CT recommended" = 1 :=
  ⟨by decide,
   (recommendations_dedup "w9"
      [completedBatch "a" "\x7b\"recommendations\": [\"Follow-up CT recommended\"]\x7d" 1,
       completedBatch "b" "\x7b\"recommendations\": [\"Follow-up CT recommended\", \"MRI advised\"]\x7d" 2]
      none 0).2.2.1 "Follow-up CT recommended" (by decide)⟩

/-! ## Finding identifiers

The identifier template is finding-INDEX-COUNT in decimal.  To reason about
uniqueness the decimal rendering is inverted: the digit run at the end of
an identifier decodes to the global ordinal. -/

/-- Decimal digit characters are digits. -/
theorem digitChar_isDigit (m : ℕ) (h : m < 10) : (Nat.digitChar m).isDigit = true := by
  interval_cases m <;> decide

/-- Decimal digit characters decode back to their value. -/
theorem digitChar_val (m : ℕ) (h : m < 10) : (Nat.digitChar m).toNat - 48 = m := by
  interval_cases m <;> decide

/-- Folding the decimal decoder over the digits the core renderer produces
continues the fold with the rendered number. -/
theorem toDigitsCore_decode :
    ∀ (fuel n : ℕ) (acc : List Char), n < 10 ^ fuel →
      List.foldl (fun a c => a * 10 + (c.toNat - 48)) 0 (Nat.toDigitsCore 10 fuel n acc)
        = List.foldl (fun a c => a * 10 + (c.toNat - 48)) n acc := by
  intro fuel
  induction fuel with
  | zero =>
    intro n acc hn
    have hn0 : n = 0 := by simpa using hn
    subst hn0
    rfl
  | succ fuel ih =>
    intro n acc hn
    show List.foldl _ 0 (Nat.toDigitsCore 10 (fuel + 1) n acc) = _
    rw [Nat.toDigitsCore]
    by_cases h0 : n / 10 = 0
    · simp only [h0, if_true]
      rw [List.foldl_cons]
      have hm : (Nat.digitChar (n % 10)).toNat - 48 = n % 10 :=
        digitChar_val (n % 10) (Nat.mod_lt n (by omega))
      rw [hm]
      have : 0 * 10 + n % 10 = n := by omega
      rw [this]
    · simp only [h0, if_false]
      have hdiv : n / 10 < 10 ^ fuel := by
        rw [Nat.div_lt_iff_lt_mul (by omega : 0 < 10)]
        calc n < 10 ^ (fuel + 1) := hn
        _ = 10 ^ fuel * 10 := by rw [pow_succ]
      rw [ih (n / 10) (Nat.digitChar (n % 10) :: acc) hdiv]
      rw [List.foldl_cons]
      have hm : (Nat.digitChar (n % 10)).toNat - 48 = n % 10 :=
        digitChar_val (n % 10) (Nat.mod_lt n (by omega))
      rw [hm]
      have : n / 10 * 10 + n % 10 = n := by omega
      rw [this]

/-- The core renderer produces only digit characters (over a digit-only
accumulator). -/
theorem toDigitsCore_digits :
    ∀ (fuel n : ℕ) (acc : List Char), (∀ c ∈ acc, c.isDigit = true) →
      ∀ c ∈ Nat.toDigitsCore 10 fuel n acc, c.isDigit = true := by
  intro fuel
  induction fuel with
  | zero => intro n acc hacc; exact hacc
  | succ fuel ih =>
    intro n acc hacc c hc
    rw [Nat.toDigitsCore] at hc
    by_cases h0 : n / 10 = 0
    · simp only [h0, if_true] at hc
      rcases List.mem_cons.mp hc with hc | hc
      · subst hc
        exact digitChar_isDigit (n % 10) (Nat.mod_lt n (by omega))
      · exact hacc c hc
    · simp only [h0, if_false] at hc
      refine ih (n / 10) (Nat.digitChar (n % 10) :: acc) ?_ c hc
      intro d hd
      rcases List.mem_cons.mp hd with hd | hd
      · subst hd
        exact digitChar_isDigit (n % 10) (Nat.mod_lt n (by omega))
      · exact hacc d hd

/-- Decoding the decimal rendering of a natural number returns it. -/
theorem natRepr_decode (n : ℕ) : digitsToNat (toString n).data = n := by
  have hd : (toString n).data = Nat.toDigitsCore 10 (n + 1) n [] := rfl
  rw [hd]
  unfold digitsToNat
  have hb : n < 10 ^ (n + 1) := by
    calc n < 10 ^ n := Nat.lt_pow_self (by omega) n
    _ ≤ 10 ^ (n + 1) := Nat.pow_le_pow_right (by omega) (Nat.le_succ n)
  rw [toDigitsCore_decode (n + 1) n [] hb]
  rfl

/-- The decimal rendering consists of digit characters. -/
theorem natRepr_digits (n : ℕ) : ∀ c ∈ (toString n).data, c.isDigit = true := by
  have hd : (toString n).data = Nat.toDigitsCore 10 (n + 1) n [] := rfl
  rw [hd]
  exact toDigitsCore_digits (n + 1) n [] (by intro c hc; cases hc)

/-- The maximal digit run at the end of a character list. -/
def takeTrailingDigits (cs : List Char) : List Char :=
  (cs.reverse.takeWhile Char.isDigit).reverse

/-- Value of the digit run at the end of a string. -/
def trailingNatVal (s : String) : ℕ := digitsToNat (takeTrailingDigits s.data)

/-- The trailing digit run after a dash is exactly the digit block that
follows the dash. -/
theorem takeTrailingDigits_append (A D : List Char) (hD : ∀ c ∈ D, c.isDigit = true) :
    takeTrailingDigits (A ++ '-' :: D) = D := by
  unfold takeTrailingDigits
  rw [List.reverse_append, List.reverse_cons, List.append_assoc]
  have hself : D.reverse.takeWhile Char.isDigit = D.reverse :=
    List.takeWhile_eq_self_iff.mpr (by
      intro c hc
      exact hD c (List.mem_reverse.mp hc))
  rw [List.takeWhile_append]
  rw [hself]
  simp [List.takeWhile_cons]

/-- The trailing value of a finding identifier is its global ordinal. -/
theorem mkFindingId_trailing (j i : ℕ) : trailingNatVal (mkFindingId j i) = i := by
  unfold trailingNatVal mkFindingId
  have hdata : ("finding-" ++ toString j ++ "-" ++ toString i).data
      = ("finding-".data ++ (toString j).data) ++ '-' :: (toString i).data := by
    simp [String.data_append, List.append_assoc]
  rw [hdata, takeTrailingDigits_append _ _ (natRepr_digits i)]
  exact natRepr_decode i

/-- Two finding identifiers with the same text carry the same global
ordinal. -/
theorem mkFindingId_inj_ordinal (j i j' i' : ℕ) (h : mkFindingId j i = mkFindingId j' i') :
    i = i' := by
  have := congrArg trailingNatVal h
  rwa [mkFindingId_trailing, mkFindingId_trailing] at this

/-- Every finding pushed by the array iteration carries the identifier
formed from the batch position and the global count at its push. -/
theorem findingsGo_get :
    ∀ (elems : List Json) (index : ℕ) (imgIds : List String) (off k : ℕ) (f : Finding),
      ((findingsGo elems index imgIds off).1).get? k = some f →
      f.id = mkFindingId index (off + k) := by
  intro elems
  induction elems with
  | nil => intro index imgIds off k f h; cases h
  | cons e rest ih =>
    intro index imgIds off k f h
    simp only [findingsGo] at h
    cases hd : e.getProp "description" with
    | none =>
      rw [hd] at h
      cases h
    | some d =>
      rw [hd] at h
      simp only at h
      cases k with
      | zero =>
        simp only [List.get?] at h
        injection h with h
        subst h
        rfl
      | succ k =>
        simp only [List.get?] at h
        have := ih index imgIds (off + 1) k f h
        rw [this]
        have : off + 1 + k = off + (k + 1) := by omega
        rw [this]

/-- Every finding a batch contributes carries the identifier formed from
the batch position and its global ordinal. -/
theorem contribFindings_get (index : ℕ) (b : ImageBatch) (off k : ℕ) (f : Finding)
    (h : (contribFindings index b off).get? k = some f) :
    f.id = mkFindingId index (off + k) := by
  unfold contribFindings at h
  cases hbp : batchPayload b with
  | none => simp only [hbp] at h; cases h
  | some bd =>
    simp only [hbp] at h
    cases hf : bd.getProp "findings" with
    | none => simp only [hf] at h; cases h
    | some fv =>
      simp only [hf] at h
      unfold findingsFromValue at h
      by_cases hta : (fv.truthy && fv.isArr) = true
      · rw [hta] at h
        simp only [if_true] at h
        exact findingsGo_get fv.items index (b.images.map (fun img => img.id)) off k f h
      · simp only [Bool.not_eq_true] at hta
        rw [hta] at h
        simp only [Bool.false_eq_true, if_false] at h
        cases h

/-- Every position of the accumulated findings list carries an identifier
built from some batch position and exactly its own ordinal. -/
theorem aggAfter_findings_ids (batches : List ImageBatch) :
    ∀ (n : ℕ), n ≤ batches.length →
      ∀ (k : ℕ) (f : Finding), (aggAfter batches n).allFindings.get? k = some f →
        ∃ j, j < n ∧ f.id = mkFindingId j k := by
  intro n
  induction n with
  | zero =>
    intro _ k f h
    rw [aggAfter_zero] at h
    cases h
  | succ n ih =>
    intro hle k f h
    have hn : n < batches.length := Nat.lt_of_succ_le hle
    rw [aggAfter_findings_succ batches n hn] at h
    rw [List.get?_eq_getElem?] at h
    rw [List.getElem?_append] at h
    by_cases hk : k < (aggAfter batches n).allFindings.length
    · rw [if_pos hk] at h
      rw [← List.get?_eq_getElem?] at h
      obtain ⟨j, hj, hid⟩ := ih (le_of_lt hn) k f h
      exact ⟨j, Nat.lt_succ_of_lt hj, hid⟩
    · rw [if_neg hk] at h
      rw [← List.get?_eq_getElem?] at h
      have hid := contribFindings_get n (batches.get ⟨n, hn⟩)
        (aggAfter batches n).allFindings.length (k - (aggAfter batches n).allFindings.length) f h
      refine ⟨n, Nat.lt_succ_self n, ?_⟩
      rw [hid]
      have : (aggAfter batches n).allFindings.length
          + (k - (aggAfter batches n).allFindings.length) = k := by omega
      rw [this]

/-- Run with one finding in each of two batches. -/
def findingIdRunA : DiagnosticReport :=
  compileFinalReport "s"
    [completedBatch "a" "\x7b\"findings\": [\x7b\"description\": \"a\"\x7d]\x7d" 1,
     completedBatch "b" "\x7b\"findings\": [\x7b\"description\": \"b\"\x7d]\x7d" 2] none 0

/-- Run whose first batch has two findings and whose second has one. -/
def findingIdRunB : DiagnosticReport :=
  compileFinalReport "s"
    [completedBatch "a"
      "\x7b\"findings\": [\x7b\"description\": \"a\"\x7d, \x7b\"description\": \"a2\"\x7d]\x7d" 1,
     completedBatch "b" "\x7b\"findings\": [\x7b\"description\": \"b\"\x7d]\x7d" 2] none 0

/-- Counterexample to C7 as stated: in both runs the sole finding of the
batch at index 1 is that batch's first finding (within-batch ordinal 0),
yet its identifier is finding-1-1 in one run and finding-1-2 in the other —
the second component is the report-wide ordinal, not the ordinal within
the batch, so the identifier is not derived from batch index and
within-batch ordinal. -/
theorem finding_ids_counterexample :
    findingIdRunA.findings.map Finding.id = ["finding-0-0", "finding-1-1"] ∧
    findingIdRunB.findings.map Finding.id = ["finding-0-0", "finding-0-1", "finding-1-2"] ∧
    ("finding-1-1" : String) ≠ "finding-1-2" :=
  ⟨rfl, rfl, by decide⟩

/-- C7 (amended): each Finding's identifier is finding-J-K where J is the
index of the batch that contributed it and K is the finding's report-wide
ordinal (the number of findings accumulated before it across all batches),
and identifiers are pairwise distinct within the Report. -/
theorem finding_ids_amended (sessionId : String) (bs : List ImageBatch)
    (patientId : Option String) (now : Int) :
    (∀ (j : ℕ), j < bs.length →
      ∀ (k : ℕ) (f : Finding),
        (aggAfter bs j).allFindings.length ≤ k →
        k < (aggAfter bs (j + 1)).allFindings.length →
        (compileFinalReport sessionId bs patientId now).findings.get? k = some f →
        f.id = mkFindingId j k) ∧
    ((compileFinalReport sessionId bs patientId now).findings.map Finding.id).Nodup := by
  have hfind : (compileFinalReport sessionId bs patientId now).findings
      = (finalAgg bs).allFindings := rfl
  constructor
  · intro j hj k f hlo hhi hget
    rw [hfind] at hget
    obtain ⟨t, ht⟩ := aggAfter_findings_le_final bs (j + 1)
    have hget' : (aggAfter bs (j + 1)).allFindings.get? k = some f := by
      rw [← ht] at hget
      rw [List.get?_eq_getElem?, List.getElem?_append, if_pos hhi] at hget
      rw [List.get?_eq_getElem?]
      exact hget
    rw [aggAfter_findings_succ bs j hj] at hget'
    rw [List.get?_eq_getElem?, List.getElem?_append, if_neg (by omega)] at hget'
    rw [← List.get?_eq_getElem?] at hget'
    have hid := contribFindings_get j (bs.get ⟨j, hj⟩)
      (aggAfter bs j).allFindings.length (k - (aggAfter bs j).allFindings.length) f hget'
    rw [hid]
    have : (aggAfter bs j).allFindings.length
        + (k - (aggAfter bs j).allFindings.length) = k := by omega
    rw [this]
  · rw [hfind]
    have hcover : ∀ (k : ℕ) (f : Finding),
        (finalAgg bs).allFindings.get? k = some f → ∃ j, f.id = mkFindingId j k := by
      intro k f h
      rw [← aggAfter_of_le bs bs.length le_rfl] at h
      obtain ⟨j, _, hid⟩ := aggAfter_findings_ids bs bs.length le_rfl k f h
      exact ⟨j, hid⟩
    rw [List.nodup_iff_injective_get]
    intro a b hab
    have ha := hcover a.1 ((finalAgg bs).allFindings.get ⟨a.1, by
      simpa [List.length_map] using a.2⟩) (by
        rw [List.get?_eq_getElem?, List.getElem?_eq_getElem]
        rfl)
    have hb := hcover b.1 ((finalAgg bs).allFindings.get ⟨b.1, by
      simpa [List.length_map] using b.2⟩) (by
        rw [List.get?_eq_getElem?, List.getElem?_eq_getElem]
        rfl)
    obtain ⟨ja, hida⟩ := ha
    obtain ⟨jb, hidb⟩ := hb
    have hga : ((finalAgg bs).allFindings.map Finding.id).get a
        = ((finalAgg bs).allFindings.get ⟨a.1, by simpa [List.length_map] using a.2⟩).id := by
      rw [List.get_eq_getElem, List.getElem_map]
      rfl
    have hgb : ((finalAgg bs).allFindings.map Finding.id).get b
        = ((finalAgg bs).allFindings.get ⟨b.1, by simpa [List.length_map] using b.2⟩).id := by
      rw [List.get_eq_getElem, List.getElem_map]
      rfl
    have heq : mkFindingId ja a.1 = mkFindingId jb b.1 := by
      rw [← hida, ← hidb, ← hga, ← hgb, hab]
    have := mkFindingId_inj_ordinal ja a.1 jb b.1 heq
    exact Fin.ext this

/-- The finding the second batch of the witness run contributes. -/
def wSecondFinding : Finding :=
  { id := "finding-1-1",
    description := Json.str "c",
    severity := Json.str "moderate",
    location := Json.str "Not specified",
    confidence := Json.num ⟨50, 0⟩,
    relatedImages := [] }

/-- Witness for C7 (amended) at a concrete input: in a run of two
one-finding batches, the finding at report position 1 comes from batch 1
and carries identifier finding-1-1. -/
theorem finding_ids_amended_witness :
    wSecondFinding.id = mkFindingId 1 1 :=
  (finding_ids_amended "w7"
    [completedBatch "a" "\x7b\"findings\": [\x7b\"description\": \"x\"\x7d]\x7d" 1,
     completedBatch "b" "\x7b\"findings\": [\x7b\"description\": \"c\"\x7d]\x7d" 2]
    none 0).1 1 (by decide) 1 wSecondFinding (by decide) (by decide) rfl

/-! ## Route-level lemmas -/

/-- The loop preserves the number of batches. -/
theorem runBatches_length (infer : ℕ → InferOutcome) (batches : List ImageBatch) :
    (runBatches infer batches).length = batches.length := by
  simp [runBatches, List.enum_length]

/-- The loop writes each batch from its own inference outcome. -/
theorem runBatches_get (infer : ℕ → InferOutcome) (batches : List ImageBatch)
    (j : ℕ) (h : j < (runBatches infer batches).length) :
    (runBatches infer batches).get ⟨j, h⟩
      = applyOutcome (infer j) (batches.get ⟨j, by
          simpa [runBatches_length] using h⟩) := by
  unfold runBatches
  rw [List.get_eq_getElem, List.getElem_map, List.getElem_enum]
  rfl

/-- Partition count of the initial batch objects. -/
theorem initialBatches_length (sessionId : String) (parts : List (List UploadedImage)) :
    (initialBatches sessionId parts).length = parts.length := by
  simp [initialBatches, List.enum_length]

/-- Every batch the loop returns under a given outcome family. -/
theorem runBatches_mem (infer : ℕ → InferOutcome) (batches : List ImageBatch)
    (b : ImageBatch) (hb : b ∈ runBatches infer batches) :
    ∃ p : ℕ × ImageBatch, p ∈ batches.enum ∧ p.1 < batches.length
      ∧ b = applyOutcome (infer p.1) p.2 := by
  unfold runBatches at hb
  rcases List.mem_map.mp hb with ⟨p, hp, hpe⟩
  refine ⟨p, hp, ?_, hpe.symm⟩
  have := List.mem_enum_iff_getElem?.mp hp
  exact (List.getElem?_eq_some.mp this).1

/-- C3: when every batch's inference call fails, the run as a whole fails:
the response carries success false (HTTP 500), no Report object is
produced, and the error text is the fixed prefix followed by every batch's
error detail concatenated with semicolons in batch order. -/
theorem total_failure_path (sessionId : String) (images : List UploadedImage)
    (patientId : Option String) (infer : ℕ → InferOutcome) (e : ℕ → String) (now : Int)
    (hne : images ≠ [])
    (hfail : ∀ j, j < (createBatches images 20).length → infer j = InferOutcome.failure (e j)) :
    (apiPOST sessionId images patientId infer now).success = false ∧
    (apiPOST sessionId images patientId infer now).error
      = some ("All batches failed to process. Errors: "
          ++ String.intercalate "; " ((List.range (createBatches images 20).length).map e)) ∧
    (apiPOST sessionId images patientId infer now).data
      = some { sessionId := sessionId,
               batchResults := runBatches infer (initialBatches sessionId (createBatches images 20)),
               finalReport := none, isComplete := false } ∧
    (apiPOST sessionId images patientId infer now).status = 500 := by
  have himg : ¬ (images.length = 0) := fun hc => hne (List.eq_nil_of_length_eq_zero hc)
  have hinitlen : (initialBatches sessionId (createBatches images 20)).length
      = (createBatches images 20).length := initialBatches_length _ _
  have hmemstat : ∀ b ∈ runBatches infer (initialBatches sessionId (createBatches images 20)),
      b.status = BatchStatus.error := by
    intro b hb
    obtain ⟨p, _, hlt, rfl⟩ := runBatches_mem infer _ b hb
    rw [hinitlen] at hlt
    rw [hfail p.1 hlt]
    rfl
  have hfc : (runBatches infer (initialBatches sessionId (createBatches images 20))).filter
      (fun b => b.status == BatchStatus.completed) = [] := by
    rw [List.filter_eq_nil_iff]
    intro b hb
    rw [hmemstat b hb]
    decide
  have hfe : (runBatches infer (initialBatches sessionId (createBatches images 20))).filter
      (fun b => b.status == BatchStatus.error)
      = runBatches infer (initialBatches sessionId (createBatches images 20)) := by
    rw [List.filter_eq_self]
    intro b hb
    rw [hmemstat b hb]
    decide
  have herrmap : ((runBatches infer (initialBatches sessionId (createBatches images 20))).map
      (fun b => b.error.getD ""))
      = (List.range (createBatches images 20).length).map e := by
    unfold runBatches
    rw [List.map_map]
    have hpt : ∀ p ∈ (initialBatches sessionId (createBatches images 20)).enum,
        ((fun b => b.error.getD "") ∘ fun p => applyOutcome (infer p.1) p.2) p = (e ∘ Prod.fst) p := by
      intro p hp
      have hlt : p.1 < (initialBatches sessionId (createBatches images 20)).length :=
        (List.getElem?_eq_some.mp (List.mem_enum_iff_getElem?.mp hp)).1
      rw [hinitlen] at hlt
      simp only [Function.comp]
      rw [hfail p.1 hlt]
      rfl
    rw [List.map_congr_left hpt]
    rw [← List.map_map, List.enum_map_fst, hinitlen]
  have hmain : apiPOST sessionId images patientId infer now
      = { success := false,
          error := some ("All batches failed to process. Errors: "
            ++ String.intercalate "; " ((List.range (createBatches images 20).length).map e)),
          data := some
            { sessionId := sessionId,
              batchResults := runBatches infer (initialBatches sessionId (createBatches images 20)),
              finalReport := none,
              isComplete := false },
          message := none, status := 500 } := by
    unfold apiPOST
    rw [if_neg himg]
    simp only [hfc, hfe, herrmap, List.length_nil]
    rfl
  rw [hmain]
  exact ⟨rfl, rfl, rfl, rfl⟩

/-- A concrete one-byte image for witnesses. -/
def mkImg (s : String) : UploadedImage :=
  { id := s, filename := s, size := 1, type := "image/png", base64 := "", uploadedAt := 0 }

/-- Witness for C3 at the specification's own test vector: three images in
one batch of twenty, the inference client always failing, give an overall
failure with the concatenated detail and no report. -/
theorem total_failure_path_witness :
    (apiPOST "w3" [mkImg "1", mkImg "2", mkImg "3"] none
        (fun _ => InferOutcome.failure "API request failed: 500") 0).success = false ∧
    (apiPOST "w3" [mkImg "1", mkImg "2", mkImg "3"] none
        (fun _ => InferOutcome.failure "API request failed: 500") 0).error
      = some ("All batches failed to process. Errors: "
          ++ String.intercalate "; "
            ((List.range (createBatches [mkImg "1", mkImg "2", mkImg "3"] 20).length).map
              (fun _ => "API request failed: 500"))) ∧
    (apiPOST "w3" [mkImg "1", mkImg "2", mkImg "3"] none
        (fun _ => InferOutcome.failure "API request failed: 500") 0).data
      = some { sessionId := "w3",
               batchResults := runBatches (fun _ => InferOutcome.failure "API request failed: 500")
                 (initialBatches "w3" (createBatches [mkImg "1", mkImg "2", mkImg "3"] 20)),
               finalReport := none, isComplete := false } ∧
    (apiPOST "w3" [mkImg "1", mkImg "2", mkImg "3"] none
        (fun _ => InferOutcome.failure "API request failed: 500") 0).status = 500 :=
  total_failure_path "w3" [mkImg "1", mkImg "2", mkImg "3"] none
    (fun _ => InferOutcome.failure "API request failed: 500")
    (fun _ => "API request failed: 500") 0 (by decide) (fun _ _ => rfl)

/-- The terminal batch sequence a run produces: partition into batches of
twenty, initialize the batch objects, drive each through the loop. -/
def runResult (sessionId : String) (images : List UploadedImage)
    (infer : ℕ → InferOutcome) : List ImageBatch :=
  runBatches infer (initialBatches sessionId (createBatches images 20))

/-- Length of the terminal batch sequence. -/
theorem runResult_length (sessionId : String) (images : List UploadedImage)
    (infer : ℕ → InferOutcome) :
    (runResult sessionId images infer).length = (createBatches images 20).length := by
  unfold runResult
  rw [runBatches_length, initialBatches_length]

/-- C2: when exactly batch k's inference call fails in a run of at least
two batches, every batch still reaches a terminal state — every batch
other than k completes, and only batch k transitions to error, with its
error reason stored — the run still succeeds with a compiled Report, and
that Report's findings list contains, as a contiguous segment, the
findings contribution of every batch (in particular of every completed
batch). -/
theorem batch_isolation (sessionId : String) (images : List UploadedImage)
    (patientId : Option String) (infer : ℕ → InferOutcome) (now : Int)
    (k : ℕ) (emsg : String)
    (hmulti : 1 < (createBatches images 20).length)
    (hk : k < (createBatches images 20).length)
    (hfail : infer k = InferOutcome.failure emsg)
    (hsucc : ∀ j, j < (createBatches images 20).length → j ≠ k → (infer j).isSuccess = true) :
    (apiPOST sessionId images patientId infer now).success = true ∧
    (apiPOST sessionId images patientId infer now).data
      = some { sessionId := sessionId,
               batchResults := runResult sessionId images infer,
               finalReport := some (compileFinalReport sessionId
                 (runResult sessionId images infer) patientId now),
               isComplete := true } ∧
    (runResult sessionId images infer).length = (createBatches images 20).length ∧
    (∀ (j : ℕ) (hj : j < (runResult sessionId images infer).length),
      ((runResult sessionId images infer).get ⟨j, hj⟩).status = BatchStatus.completed ∨
      ((runResult sessionId images infer).get ⟨j, hj⟩).status = BatchStatus.error) ∧
    (∀ (j : ℕ) (hj : j < (runResult sessionId images infer).length), j ≠ k →
      ((runResult sessionId images infer).get ⟨j, hj⟩).status = BatchStatus.completed) ∧
    (∀ hk' : k < (runResult sessionId images infer).length,
      ((runResult sessionId images infer).get ⟨k, hk'⟩).status = BatchStatus.error ∧
      ((runResult sessionId images infer).get ⟨k, hk'⟩).error = some emsg) ∧
    (∀ (j : ℕ) (hj : j < (runResult sessionId images infer).length),
      List.IsInfix
        (contribFindings j ((runResult sessionId images infer).get ⟨j, hj⟩)
          (aggAfter (runResult sessionId images infer) j).allFindings.length)
        (compileFinalReport sessionId (runResult sessionId images infer) patientId now).findings) := by
  have hblen : (runResult sessionId images infer).length = (createBatches images 20).length :=
    runResult_length sessionId images infer
  have hstat_other : ∀ (j : ℕ) (hj : j < (runResult sessionId images infer).length), j ≠ k →
      ((runResult sessionId images infer).get ⟨j, hj⟩).status = BatchStatus.completed := by
    intro j hj hjk
    have hjn : j < (createBatches images 20).length := by rw [← hblen]; exact hj
    unfold runResult
    rw [runBatches_get]
    have hs := hsucc j hjn hjk
    cases hout : infer j with
    | success r t => rfl
    | failure msg => rw [hout] at hs; cases hs
  have hstat_k : ∀ hk' : k < (runResult sessionId images infer).length,
      ((runResult sessionId images infer).get ⟨k, hk'⟩).status = BatchStatus.error ∧
      ((runResult sessionId images infer).get ⟨k, hk'⟩).error = some emsg := by
    intro hk'
    unfold runResult
    rw [runBatches_get]
    rw [hfail]
    exact ⟨rfl, rfl⟩
  have hterm : ∀ (j : ℕ) (hj : j < (runResult sessionId images infer).length),
      ((runResult sessionId images infer).get ⟨j, hj⟩).status = BatchStatus.completed ∨
      ((runResult sessionId images infer).get ⟨j, hj⟩).status = BatchStatus.error := by
    intro j hj
    by_cases hjk : j = k
    · subst hjk
      exact Or.inr (hstat_k hj).1
    · exact Or.inl (hstat_other j hj hjk)
  have hinfix : ∀ (j : ℕ) (hj : j < (runResult sessionId images infer).length),
      List.IsInfix
        (contribFindings j ((runResult sessionId images infer).get ⟨j, hj⟩)
          (aggAfter (runResult sessionId images infer) j).allFindings.length)
        (compileFinalReport sessionId (runResult sessionId images infer) patientId now).findings := by
    intro j hj
    obtain ⟨t, ht⟩ := aggAfter_findings_le_final (runResult sessionId images infer) (j + 1)
    rw [aggAfter_findings_succ (runResult sessionId images infer) j hj] at ht
    refine ⟨(aggAfter (runResult sessionId images infer) j).allFindings, t, ?_⟩
    show ((aggAfter (runResult sessionId images infer) j).allFindings ++ _) ++ t = _
    rw [List.append_assoc] at ht ⊢
    exact ht
  -- completed batches are non-empty: a batch other than k exists and completed
  have hj0 : (if k = 0 then 1 else 0) < (runResult sessionId images infer).length := by
    rw [hblen]
    by_cases hk0 : k = 0
    · rw [if_pos hk0]; omega
    · rw [if_neg hk0]; omega
  have hj0k : (if k = 0 then 1 else 0) ≠ k := by
    by_cases hk0 : k = 0
    · rw [if_pos hk0]; omega
    · rw [if_neg hk0]; omega
  have hmemc : (runResult sessionId images infer).get ⟨if k = 0 then 1 else 0, hj0⟩
      ∈ (runResult sessionId images infer).filter (fun b => b.status == BatchStatus.completed) := by
    apply List.mem_filter.mpr
    refine ⟨List.get_mem _ _ _, ?_⟩
    rw [hstat_other _ hj0 hj0k]
    decide
  have hcomp0 : ¬ (((runResult sessionId images infer).filter
      (fun b => b.status == BatchStatus.completed)).length = 0) := by
    intro hc
    rw [List.length_eq_zero] at hc
    rw [hc] at hmemc
    cases hmemc
  have himg : ¬ (images.length = 0) := by
    intro hc
    have : images = [] := List.eq_nil_of_length_eq_zero hc
    subst this
    have : createBatchesAux 0 ([] : List UploadedImage) 20 = [] := rfl
    rw [show createBatches ([] : List UploadedImage) 20 = [] from rfl] at hk
    cases hk
  have hmain : apiPOST sessionId images patientId infer now
      = { success := true,
          error := none,
          data := some
            { sessionId := sessionId,
              batchResults := runResult sessionId images infer,
              finalReport := some (compileFinalReport sessionId
                (runResult sessionId images infer) patientId now),
              isComplete := true },
          message := some (if 0 < ((runResult sessionId images infer).filter
              (fun b => b.status == BatchStatus.error)).length then
            "Processing completed with "
              ++ toString ((runResult sessionId images infer).filter
                  (fun b => b.status == BatchStatus.error)).length
              ++ " batch(es) failed out of "
              ++ toString (runResult sessionId images infer).length
            else "Successfully processed all "
              ++ toString (runResult sessionId images infer).length ++ " batches"),
          status := 200 } := by
    unfold apiPOST
    rw [if_neg himg]
    show (let batches := runResult sessionId images infer
          let completedBatches := batches.filter (fun b => b.status == BatchStatus.completed)
          let errorBatches := batches.filter (fun b => b.status == BatchStatus.error)
          if completedBatches.length = 0 then
            { success := false,
              error := some ("All batches failed to process. Errors: "
                ++ String.intercalate "; " (errorBatches.map (fun b => b.error.getD ""))),
              data := some { sessionId := sessionId, batchResults := batches,
                             finalReport := none, isComplete := false },
              status := 500 }
          else
            let finalReport := compileFinalReport sessionId batches patientId now
            { success := true,
              data := some { sessionId := sessionId, batchResults := batches,
                             finalReport := some finalReport, isComplete := true },
              message := some (if errorBatches.length > 0 then
                "Processing completed with " ++ toString errorBatches.length
                  ++ " batch(es) failed out of " ++ toString batches.length
                else "Successfully processed all " ++ toString batches.length ++ " batches"),
              status := 200 } : ApiResponse) = _
    simp only []
    rw [if_neg hcomp0]
  refine ⟨?_, ?_, hblen, hterm, hstat_other, hstat_k, hinfix⟩
  · rw [hmain]
  · rw [hmain]

/-- Forty-one concrete images (three batches of twenty). -/
def wImgs41 : List UploadedImage := (List.range 41).map (fun i => mkImg (toString i))

/-- An outcome family in which exactly batch 1 fails. -/
def wInfer : ℕ → InferOutcome := fun i =>
  if i = 1 then InferOutcome.failure "boom"
  else InferOutcome.success
    "\x7b\"findings\": [\x7b\"description\": \"ok\"\x7d], \"confidence\": 60\x7d" (100 + (i : Int))

/-- Witness for C2 at a concrete input: forty-one images in three batches
with batch 1 failing still give a successful run, and batch 1 ends in the
error state. -/
theorem batch_isolation_witness :
    (apiPOST "w2" wImgs41 none wInfer 0).success = true ∧
    ((runResult "w2" wImgs41 wInfer).get ⟨1, by decide⟩).status = BatchStatus.error :=
  ⟨(batch_isolation "w2" wImgs41 none wInfer 0 1 "boom" (by decide) (by decide) rfl
      (fun j _ hjk => by rw [wInfer, if_neg hjk]; rfl)).1,
   ((batch_isolation "w2" wImgs41 none wInfer 0 1 "boom" (by decide) (by decide) rfl
      (fun j _ hjk => by rw [wInfer, if_neg hjk]; rfl)).2.2.2.2.2.1 (by decide)).1⟩
